import Mathlib

/-!
# Hexahedron x86_64 memory definitions (`hexahedron/include/kernel/arch/x86_64/mem.h`)

Shallow embedding of the macros, constants and the `page_t` union of `mem.h`.

Conventions of the embedding:
* a `uintptr_t` / `uint64_t` value is a natural number below `2 ^ 64`; every
  operation that can leave that range in C is reduced `% 2 ^ 64` explicitly;
* the `int` constant `~0xFFF`, once converted to the 64-bit operand type of
  `&`, is the 64-bit complement of `0xFFF` (`not64 0xFFF`);
* `page_t` is the structure of its bit-fields; the `data` member of the union
  is the function `page_t.data` that lays the fields out from bit 0 upwards in
  declaration order, and `page_t.ofData` reads the bit-fields of a raw value;
* an assignment to a bit-field of width `w` stores the value `% 2 ^ w`; a
  bit-field narrower than `int` that is read without a cast is promoted to
  `int`, so arithmetic on it is 32-bit, and an `int` result used as a 64-bit
  address is sign-extended (`sext32`).
-/

namespace Ethereal

/-! ## Definitions -/

/-- Number of values of a `uintptr_t` / `uint64_t`. -/
def UINT64_MOD : Nat := 2 ^ 64

/-- The C expression `~x` for a non-negative constant `x`, as a 64-bit operand. -/
def not64 (x : Nat) : Nat := UINT64_MOD - 1 - x

/-- Macro `#define PAGE_SIZE 0x1000` -/
def PAGE_SIZE : Nat := 0x1000

/-- Macro `#define PAGE_SIZE_LARGE 0x200000` -/
def PAGE_SIZE_LARGE : Nat := 0x200000

/-- Macro `#define MEM_PAGE_SHIFT 12` -/
def MEM_PAGE_SHIFT : Nat := 12

/-- Macro `#define MEM_ALIGN_PAGE(addr) ((addr + PAGE_SIZE) & ~0xFFF)` -/
def MEM_ALIGN_PAGE (addr : Nat) : Nat :=
  ((addr + PAGE_SIZE) % UINT64_MOD) &&& not64 0xFFF

/-- Macro `#define MEM_ALIGN_PAGE_DESTRUCTIVE(addr) (addr & ~0xFFF)` -/
def MEM_ALIGN_PAGE_DESTRUCTIVE (addr : Nat) : Nat :=
  addr &&& not64 0xFFF

/-- Macro `#define MEM_PML4_INDEX(x) ((x >> (MEM_PAGE_SHIFT + 27)) & 0x1FF)` -/
def MEM_PML4_INDEX (x : Nat) : Nat := (x >>> (MEM_PAGE_SHIFT + 27)) &&& 0x1FF

/-- Macro `#define MEM_PDPT_INDEX(x) ((x >> (MEM_PAGE_SHIFT + 18)) & 0x1FF)` -/
def MEM_PDPT_INDEX (x : Nat) : Nat := (x >>> (MEM_PAGE_SHIFT + 18)) &&& 0x1FF

/-- Macro `#define MEM_PAGEDIR_INDEX(x) ((x >> (MEM_PAGE_SHIFT + 9)) & 0x1FF)` -/
def MEM_PAGEDIR_INDEX (x : Nat) : Nat := (x >>> (MEM_PAGE_SHIFT + 9)) &&& 0x1FF

/-- Macro `#define MEM_PAGETBL_INDEX(x) ((x >> MEM_PAGE_SHIFT) & 0x1FF)` -/
def MEM_PAGETBL_INDEX (x : Nat) : Nat := (x >>> MEM_PAGE_SHIFT) &&& 0x1FF

/-- Macro `#define MEM_IS_CANONICAL(addr)
  (((addr & 0xFFFF000000000000) == 0xFFFF000000000000) || !(addr & 0xFFFF000000000000))` -/
def MEM_IS_CANONICAL (addr : Nat) : Bool :=
  ((addr &&& 0xFFFF000000000000) == 0xFFFF000000000000) ||
    ((addr &&& 0xFFFF000000000000) == 0)

/-! ### `page_t` -/

/-- The `bits` member of `union page`: one field per bit-field, in declaration
order, with the declared width in the comment. -/
structure page_t where
  /-- Field `present:1`. -/
  present : Nat
  /-- Field `rw:1`. -/
  rw : Nat
  /-- Field `usermode:1`. -/
  usermode : Nat
  /-- Field `writethrough:1`. -/
  writethrough : Nat
  /-- Field `cache_disable:1`. -/
  cache_disable : Nat
  /-- Field `accessed:1`. -/
  accessed : Nat
  /-- Field `dirty:1`. -/
  dirty : Nat
  /-- Field `size:1`. -/
  size : Nat
  /-- Field `global:1`. -/
  global : Nat
  /-- Field `available2:3`. -/
  available2 : Nat
  /-- Field `address:28`. -/
  address : Nat
  /-- Field `reserved:12`. -/
  reserved : Nat
  /-- Field `cow:1`. -/
  cow : Nat
  /-- Field `available3:10`. -/
  available3 : Nat
  /-- Field `nx:1`. -/
  nx : Nat
deriving DecidableEq

/-- The `data` member of the union: the 64-bit word whose bits are the
bit-fields, allocated from bit 0 upwards in declaration order. -/
def page_t.data (p : page_t) : Nat :=
  p.present * 2 ^ 0 + p.rw * 2 ^ 1 + p.usermode * 2 ^ 2 + p.writethrough * 2 ^ 3
    + p.cache_disable * 2 ^ 4 + p.accessed * 2 ^ 5 + p.dirty * 2 ^ 6 + p.size * 2 ^ 7
    + p.global * 2 ^ 8 + p.available2 * 2 ^ 9 + p.address * 2 ^ 12
    + p.reserved * 2 ^ 40 + p.cow * 2 ^ 52 + p.available3 * 2 ^ 53 + p.nx * 2 ^ 63

/-- Reading the bit-fields of the word stored through the `data` member. -/
def page_t.ofData (d : Nat) : page_t where
  present := (d >>> 0) % 2 ^ 1
  rw := (d >>> 1) % 2 ^ 1
  usermode := (d >>> 2) % 2 ^ 1
  writethrough := (d >>> 3) % 2 ^ 1
  cache_disable := (d >>> 4) % 2 ^ 1
  accessed := (d >>> 5) % 2 ^ 1
  dirty := (d >>> 6) % 2 ^ 1
  size := (d >>> 7) % 2 ^ 1
  global := (d >>> 8) % 2 ^ 1
  available2 := (d >>> 9) % 2 ^ 3
  address := (d >>> 12) % 2 ^ 28
  reserved := (d >>> 40) % 2 ^ 12
  cow := (d >>> 52) % 2 ^ 1
  available3 := (d >>> 53) % 2 ^ 10
  nx := (d >>> 63) % 2 ^ 1

/-- Macro `#define MEM_SET_FRAME(page, frame)
  (page->bits.address = ((uintptr_t)frame >> MEM_PAGE_SHIFT))`: the value is
truncated to the 28 bits of the field; no other field is written. -/
def MEM_SET_FRAME (page : page_t) (frame : Nat) : page_t :=
  { page with address := ((frame % UINT64_MOD) >>> MEM_PAGE_SHIFT) % 2 ^ 28 }

/-- The value of a C `int` expression whose 32-bit pattern is `x % 2 ^ 32`,
once converted to a 64-bit unsigned address: the sign bit is extended. -/
def sext32 (x : Nat) : Nat :=
  if x % 2 ^ 32 < 2 ^ 31 then x % 2 ^ 32 else x % 2 ^ 32 + (UINT64_MOD - 2 ^ 32)

/-- Macro `#define MEM_GET_FRAME(page) (page->bits.address << MEM_PAGE_SHIFT)`.
The 28-bit bit-field `address` is read without a cast, so it is promoted to
`int`: the shift is a 32-bit shift and its `int` result is sign-extended when
it is used as an address. -/
def MEM_GET_FRAME (page : page_t) : Nat :=
  sext32 (page.address <<< MEM_PAGE_SHIFT)

/-! ### Address-space regions -/

/-- Macro `#define MEM_USERSPACE_REGION_START (uintptr_t)0x0000000000000000` -/
def MEM_USERSPACE_REGION_START : Nat := 0x0000000000000000
/-- Macro `#define MEM_USERSPACE_REGION_END (uintptr_t)0x0000070000000000` -/
def MEM_USERSPACE_REGION_END : Nat := 0x0000070000000000
/-- Macro `#define MEM_USERMODE_STACK_REGION (uintptr_t)0x0000060000000000` -/
def MEM_USERMODE_STACK_REGION : Nat := 0x0000060000000000
/-- Macro `#define MEM_DMA_REGION (uintptr_t)0x0000070000000000` -/
def MEM_DMA_REGION : Nat := 0x0000070000000000
/-- Macro `#define MEM_USERMODE_DEVICE_REGION (uintptr_t)0x0000400000000000` -/
def MEM_USERMODE_DEVICE_REGION : Nat := 0x0000400000000000
/-- Macro `#define MEM_FRAMEBUFFER_REGION (uintptr_t)0x0000080000000000` -/
def MEM_FRAMEBUFFER_REGION : Nat := 0x0000080000000000
/-- Macro `#define MEM_HEAP_REGION (uintptr_t)0xFFFFFF0000000000` -/
def MEM_HEAP_REGION : Nat := 0xFFFFFF0000000000
/-- Macro `#define MEM_PHYSMEM_MAP_REGION (uintptr_t)0xFFFFFF8000000000` -/
def MEM_PHYSMEM_MAP_REGION : Nat := 0xFFFFFF8000000000
/-- Macro `#define MEM_MMIO_REGION (uintptr_t)0xFFFFFFF000000000` -/
def MEM_MMIO_REGION : Nat := 0xFFFFFFF000000000
/-- Macro `#define MEM_DRIVER_REGION (uintptr_t)0xFFFFFFFF00000000` -/
def MEM_DRIVER_REGION : Nat := 0xFFFFFFFF00000000

/-- Macro `#define MEM_MMIO_REGION_SIZE (uintptr_t)0x0000000100000000` -/
def MEM_MMIO_REGION_SIZE : Nat := 0x0000000100000000
/-- Macro `#define MEM_USERMODE_STACK_SIZE (uintptr_t)0x0000010000000000` -/
def MEM_USERMODE_STACK_SIZE : Nat := 0x0000010000000000
/-- Macro `#define MEM_DMA_REGION_SIZE (uintptr_t)0x0000000100000000` -/
def MEM_DMA_REGION_SIZE : Nat := 0x0000000100000000
/-- Macro `#define MEM_PHYSMEM_MAP_SIZE (uintptr_t)0x0000001000000000` -/
def MEM_PHYSMEM_MAP_SIZE : Nat := 0x0000001000000000
/-- Macro `#define MEM_DRIVER_REGION_SIZE (uintptr_t)0x0000000080000000` -/
def MEM_DRIVER_REGION_SIZE : Nat := 0x0000000080000000

/-- The regions of the address space for which `mem.h` gives both a base and an
extent. -/
inductive Region where
  | userspace
  | usermode_stack
  | dma
  | physmem_map
  | mmio
  | driver
deriving DecidableEq

/-- First address of a region, from the `MEM_*_REGION` constants. -/
def Region.base : Region → Nat
  | .userspace => MEM_USERSPACE_REGION_START
  | .usermode_stack => MEM_USERMODE_STACK_REGION
  | .dma => MEM_DMA_REGION
  | .physmem_map => MEM_PHYSMEM_MAP_REGION
  | .mmio => MEM_MMIO_REGION
  | .driver => MEM_DRIVER_REGION

/-- First address past a region: `MEM_USERSPACE_REGION_END` for userspace,
base plus the `MEM_*_SIZE` constant for the others. -/
def Region.limit : Region → Nat
  | .userspace => MEM_USERSPACE_REGION_END
  | .usermode_stack => MEM_USERMODE_STACK_REGION + MEM_USERMODE_STACK_SIZE
  | .dma => MEM_DMA_REGION + MEM_DMA_REGION_SIZE
  | .physmem_map => MEM_PHYSMEM_MAP_REGION + MEM_PHYSMEM_MAP_SIZE
  | .mmio => MEM_MMIO_REGION + MEM_MMIO_REGION_SIZE
  | .driver => MEM_DRIVER_REGION + MEM_DRIVER_REGION_SIZE

/-- Membership of an address in the half-open interval of a region. -/
def Region.contains (r : Region) (x : Nat) : Prop := r.base ≤ x ∧ x < r.limit

instance (r : Region) (x : Nat) : Decidable (r.contains x) := by
  unfold Region.contains
  exact inferInstance

/-- Two regions share no address. -/
def Region.disjoint (r s : Region) : Prop := r.limit ≤ s.base ∨ s.limit ≤ r.base

instance (r s : Region) : Decidable (r.disjoint s) := by
  unfold Region.disjoint
  exact inferInstance

/-- The start and end addresses that the memory-map comment of `mem.h`
(lines 57-66) gives for a region. -/
def Region.documented : Region → Nat × Nat
  | .userspace => (0x0000000000000000, 0x0000700000000000)
  | .usermode_stack => (0x0000600000000000, 0x0000700000000000)
  | .dma => (0x0000700000000000, 0x0000800000000000)
  | .physmem_map => (0xFFFFFF8000000000, 0xFFFFFF9000000000)
  | .mmio => (0xFFFFFFF000000000, 0xFFFFFFF100000000)
  | .driver => (0xFFFFFFFF00000000, 0xFFFFFFFF80000000)


/-- The end of the heap that the memory-map comment of `mem.h` (line 63,
`0xFFFFFF0000000000 - 0xFFFFFF0000010000: Heap memory`) documents. -/
def MEM_HEAP_DOCUMENTED_END : Nat := 0xFFFFFF0000010000

/-- The declared widths of the bit-fields of `page_t`, in declaration order:
`present`, `rw`, `usermode`, `writethrough`, `cache_disable`, `accessed`,
`dirty`, `size`, `global`, `available2`, `address`, `reserved`, `cow`,
`available3`, `nx`. -/
def page_t.widths : List Nat := [1, 1, 1, 1, 1, 1, 1, 1, 1, 3, 28, 12, 1, 10, 1]

/-- Bit position of the `k`-th bit-field: the widths declared before it, added up. -/
def page_t.offset (k : Nat) : Nat := (page_t.widths.take k).sum

/-- Every field holds a value of its declared width. -/
def page_t.valid (p : page_t) : Prop :=
  p.present < 2 ^ 1 ∧ p.rw < 2 ^ 1 ∧ p.usermode < 2 ^ 1 ∧ p.writethrough < 2 ^ 1
    ∧ p.cache_disable < 2 ^ 1 ∧ p.accessed < 2 ^ 1 ∧ p.dirty < 2 ^ 1 ∧ p.size < 2 ^ 1
    ∧ p.global < 2 ^ 1 ∧ p.available2 < 2 ^ 3 ∧ p.address < 2 ^ 28 ∧ p.reserved < 2 ^ 12
    ∧ p.cow < 2 ^ 1 ∧ p.available3 < 2 ^ 10 ∧ p.nx < 2 ^ 1

instance (p : page_t) : Decidable p.valid := by
  unfold page_t.valid
  exact inferInstance

/-! ### Page-table walker and mapping policy

The walker and the policy engine are not part of `mem.h`, which only declares
`mem_init`; they are modelled from sections 3, 4.2, 4.4, 4.5 and 6 of the
specification, on top of the macros of `mem.h` embedded above. -/

/-- Modelled from the spec: the results of `map` (section 6, error kinds of
section 7); the function is not in the sources. -/
inductive MapResult where
  | Ok
  | AlreadyMapped
  | InvalidAddress
  | RegionViolation
  | OutOfMemory
deriving DecidableEq

/-- Modelled from the spec: the purpose of a mapping request, one for each
named region of section 3 (Userspace, Usermode-Stack, DMA, Usermode-Device,
Framebuffer, Heap, Physical-Memory-Identity-Map, MMIO, Driver); the sources
declare no such type. -/
inductive Purpose where
  | userspace
  | usermode_stack
  | dma
  | usermode_device
  | framebuffer
  | heap
  | physmem_map
  | mmio
  | driver
deriving DecidableEq

/-- Modelled from the spec: whether an address lies in the region a purpose
names (section 4.2). Userspace, Usermode-Stack, DMA, identity map, MMIO and
Driver are the intervals of `Region`. The Heap runs from `MEM_HEAP_REGION` up
to `MEM_PHYSMEM_MAP_REGION`, the region of section 3 it is placed adjacent to.
The header has no extent for Usermode-Device: `dev_size` is that extent. The
Framebuffer region is "legacy, unused for new mappings" (section 3), so no new
mapping is allowed in it. -/
def Purpose.allows (dev_size : Nat) : Purpose → Nat → Bool
  | .userspace, V => decide (Region.userspace.contains V)
  | .usermode_stack, V => decide (Region.usermode_stack.contains V)
  | .dma, V => decide (Region.dma.contains V)
  | .usermode_device, V =>
      decide (MEM_USERMODE_DEVICE_REGION ≤ V ∧ V < MEM_USERMODE_DEVICE_REGION + dev_size)
  | .framebuffer, _ => false
  | .heap, V => decide (MEM_HEAP_REGION ≤ V ∧ V < MEM_PHYSMEM_MAP_REGION)
  | .physmem_map, V => decide (Region.physmem_map.contains V)
  | .mmio, V => decide (Region.mmio.contains V)
  | .driver, V => decide (Region.driver.contains V)

/-- Modelled from the spec: the attribute set of a mapping request (section
4.5), which the sources do not declare: the purpose, the requested write and
user access, the copy-on-write mark and the overwrite request of section 4.4. -/
structure Attributes where
  /-- Purpose of the mapping. -/
  purpose : Purpose
  /-- Write access requested. -/
  writable : Bool
  /-- User-mode access requested. -/
  user : Bool
  /-- Copy-on-write mapping requested. -/
  copy_on_write : Bool
  /-- Replacing a present entry is allowed. -/
  overwrite : Bool
deriving DecidableEq

/-- Modelled from the spec: the page tables in physical memory (section 3).
The table in the frame at physical address `T` has the entry `mem T i` at index
`i`; a non-leaf entry points to the next table by its frame field. -/
abbrev PhysMem := Nat → Nat → page_t

/-- Modelled from the spec: an address-space context (section 3): the physical
address of its top-level table, and the memory holding the tables. -/
structure AddressSpace where
  /-- Physical address of the top-level table. -/
  root : Nat
  /-- Memory holding the page tables. -/
  mem : PhysMem

/-- Modelled from the spec: an all-zero entry, as found in a zeroed frame
(section 4.4). -/
def page_t.zero : page_t := page_t.ofData 0

/-- Modelled from the spec: writing the entry at index `i` of the table at
`T`; every other entry is kept. -/
def PhysMem.write (mem : PhysMem) (T i : Nat) (e : page_t) : PhysMem :=
  fun X j => if X = T ∧ j = i then e else mem X j

/-- Modelled from the spec: zeroing the frame at `f` (section 4.4). -/
def PhysMem.zeroFrame (mem : PhysMem) (f : Nat) : PhysMem :=
  fun X j => if X = f then page_t.zero else mem X j

/-- Modelled from the spec: the address space with the top-level table at
`root` and all memory zero, so that nothing is mapped. -/
def AddressSpace.empty (root : Nat) : AddressSpace := ⟨root, fun _ _ => page_t.zero⟩

/-- Modelled from the spec: the entry installed for a new intermediate table
(section 4.4): present, writable, user flag inherited from the request, frame
set with `MEM_SET_FRAME` to the frame obtained from the allocator. -/
def intermediateEntry (frame : Nat) (user : Bool) : page_t :=
  MEM_SET_FRAME { page_t.zero with present := 1, rw := 1, usermode := user.toNat } frame

/-- Modelled from the spec: the leaf entry built from a frame and an attribute
set (sections 4.1 and 4.5): present, frame set with `MEM_SET_FRAME`, no-execute
for data mappings, a copy-on-write entry read-only with the `cow` mark. -/
def leafEntry (F : Nat) (A : Attributes) : page_t :=
  MEM_SET_FRAME
    { page_t.zero with
      present := 1
      rw := (A.writable && !A.copy_on_write).toNat
      usermode := A.user.toNat
      cow := A.copy_on_write.toNat
      nx := 1 } F

/-- Modelled from the spec: the checks of the mapping policy engine (section
4.5) made before the walk: a non-canonical address (by `MEM_IS_CANONICAL`) is an
`InvalidAddress`; an address outside the region of the requested purpose, or a
user-accessible mapping outside the Userspace region, is a `RegionViolation`. -/
def policy (dev_size V : Nat) (A : Attributes) : MapResult :=
  if MEM_IS_CANONICAL V = false then MapResult.InvalidAddress
  else if A.purpose.allows dev_size V = false then MapResult.RegionViolation
  else if A.user = true ∧ ¬ Region.userspace.contains V then MapResult.RegionViolation
  else MapResult.Ok

/-- Modelled from the spec: the creating walk of `map` (section 4.4), from the
table at `T` through the non-leaf levels whose indices are listed, down to the
leaf index `i1`. At a non-leaf level the entry is read; if it is absent a frame
is taken from the frame allocator (the list of frames it will hand out; the
empty list is `OutOfMemory`), the frame is zeroed and installed as a new table;
the walk descends to the table the frame field of the entry gives
(`MEM_GET_FRAME`). At the leaf a present entry without the overwrite request is
`AlreadyMapped`; otherwise the entry built by `leafEntry` is installed. Tables
created before a failure stay installed. -/
def walkCreate (A : Attributes) (F i1 : Nat) :
    List Nat → PhysMem → List Nat → Nat → MapResult × PhysMem × List Nat
  | [], mem, frames, T =>
      if (mem T i1).present = 1 ∧ A.overwrite = false then
        (MapResult.AlreadyMapped, mem, frames)
      else (MapResult.Ok, mem.write T i1 (leafEntry F A), frames)
  | i :: is, mem, frames, T =>
      if (mem T i).present = 1 then
        walkCreate A F i1 is mem frames (MEM_GET_FRAME (mem T i))
      else
        match frames with
        | [] => (MapResult.OutOfMemory, mem, [])
        | f :: rest =>
          walkCreate A F i1 is ((mem.zeroFrame f).write T i (intermediateEntry f A.user)) rest
            (MEM_GET_FRAME (intermediateEntry f A.user))

/-- Modelled from the spec: `map(addressSpace, virtualAddress, physicalFrame,
attributes)` of section 6: the policy checks of section 4.5, then the creating
walk of section 4.4 from the top-level table through the levels selected by
`MEM_PML4_INDEX`, `MEM_PDPT_INDEX`, `MEM_PAGEDIR_INDEX` and `MEM_PAGETBL_INDEX`.
The result comes with the address space and the frame allocator after the
call. -/
def AddressSpace.map (dev_size : Nat) (as : AddressSpace) (frames : List Nat) (V F : Nat)
    (A : Attributes) : MapResult × AddressSpace × List Nat :=
  if policy dev_size V A = MapResult.Ok then
    ((walkCreate A F (MEM_PAGETBL_INDEX V)
        [MEM_PML4_INDEX V, MEM_PDPT_INDEX V, MEM_PAGEDIR_INDEX V] as.mem frames as.root).1,
      ⟨as.root, (walkCreate A F (MEM_PAGETBL_INDEX V)
        [MEM_PML4_INDEX V, MEM_PDPT_INDEX V, MEM_PAGEDIR_INDEX V] as.mem frames as.root).2.1⟩,
      (walkCreate A F (MEM_PAGETBL_INDEX V)
        [MEM_PML4_INDEX V, MEM_PDPT_INDEX V, MEM_PAGEDIR_INDEX V] as.mem frames as.root).2.2)
  else (policy dev_size V A, as, frames)

/-- Modelled from the spec: the non-creating walk (section 4.4), from the table
at `T` through the listed non-leaf indices to the leaf index `i1`, following
the frame field of each present entry; an absent entry ends the walk with "not
mapped" (`none`). The result is the leaf entry. -/
def walkEntry (i1 : Nat) : List Nat → PhysMem → Nat → Option page_t
  | [], mem, T => if (mem T i1).present = 1 then some (mem T i1) else none
  | i :: is, mem, T =>
      if (mem T i).present = 1 then walkEntry i1 is mem (MEM_GET_FRAME (mem T i)) else none

/-- Modelled from the spec: the leaf entry that maps a virtual address, found
by the non-creating walk from the top-level table. -/
def AddressSpace.lookup (as : AddressSpace) (V : Nat) : Option page_t :=
  walkEntry (MEM_PAGETBL_INDEX V)
    [MEM_PML4_INDEX V, MEM_PDPT_INDEX V, MEM_PAGEDIR_INDEX V] as.mem as.root

/-- Modelled from the spec: `translate(addressSpace, virtualAddress)` of
section 6: the frame of the leaf entry, read with `MEM_GET_FRAME`; `none` is
`NotMapped`. -/
def AddressSpace.translate (as : AddressSpace) (V : Nat) : Option Nat :=
  (as.lookup V).map MEM_GET_FRAME

/-- Modelled from the spec: the tables that the walk from the table at `T`
visits before any table is created: `T` itself and, as long as the entries are
present, the tables their frame fields give. -/
def pathTables : List Nat → PhysMem → Nat → List Nat
  | [], _, T => [T]
  | i :: is, mem, T =>
      T :: (if (mem T i).present = 1 then pathTables is mem (MEM_GET_FRAME (mem T i)) else [])

/-- Modelled from the spec: the existing tables on the walk of a virtual
address, from the top-level table down. -/
def AddressSpace.walkTables (as : AddressSpace) (V : Nat) : List Nat :=
  pathTables [MEM_PML4_INDEX V, MEM_PDPT_INDEX V, MEM_PAGEDIR_INDEX V] as.mem as.root

/-! ### `userspace/lib/celestial/event.c` -/

/-- The hashmap operations that `event.c` calls on `win->event_handler_map`.
Their implementation is not part of the sources, so they are parameters of the
embedding. A key is the `(void*)(uintptr_t)` cast of an event number and a value
is a handler pointer, both as numbers. -/
structure HashmapOps (M : Type) where
  /-- Library function `hashmap_has(map, key)`. -/
  hashmap_has : M → Nat → Bool
  /-- Library function `hashmap_set(map, key, value)`, as the map afterwards. -/
  hashmap_set : M → Nat → Nat → M
  /-- Library function `hashmap_get(map, key)`. -/
  hashmap_get : M → Nat → Nat

/-- The behaviour expected of a hashmap: a key that was set is present with the
value set, and the other keys are as before. -/
def HashmapOps.lawful {M : Type} (ops : HashmapOps M) : Prop :=
  (∀ m k v, ops.hashmap_has (ops.hashmap_set m k v) k = true)
    ∧ (∀ m k v, ops.hashmap_get (ops.hashmap_set m k v) k = v)
    ∧ (∀ m k v j, j ≠ k → ops.hashmap_has (ops.hashmap_set m k v) j = ops.hashmap_has m j)
    ∧ (∀ m k v j, j ≠ k → ops.hashmap_get (ops.hashmap_set m k v) j = ops.hashmap_get m j)

/-- A hashmap as a function from keys to stored values, for concrete runs. -/
def HashmapOps.concrete : HashmapOps (Nat → Option Nat) where
  hashmap_has := fun m k => (m k).isSome
  hashmap_set := fun m k v => fun j => if j = k then some v else m j
  hashmap_get := fun m k => (m k).getD 0

/-- The members of `window_t` that `event.c` reads: `wid` and
`event_handler_map`. -/
structure window_t (M : Type) where
  /-- Member `wid`. -/
  wid : Nat
  /-- Member `event_handler_map`. -/
  event_handler_map : M

/-- Function `celestial_setHandler(win, event, handler)` of `event.c`. The
constant `EEXIST` of `errno.h` is a parameter. The result is the return value,
the window afterwards and `errno` afterwards. -/
def celestial_setHandler {M : Type} (ops : HashmapOps M) (EEXIST : Int)
    (win : window_t M) (errno : Int) (event handler : Nat) : Int × window_t M × Int :=
  if ops.hashmap_has win.event_handler_map event = true then
    (-1, win, EEXIST)
  else
    (0, { win with
          event_handler_map := ops.hashmap_set win.event_handler_map event handler },
      errno)

/-- The members of `celestial_req_subscribe_t` / `celestial_req_unsubscribe_t`
that `event.c` initialises. -/
structure celestial_req_t where
  /-- Member `magic`. -/
  magic : Nat
  /-- Member `type`. -/
  type : Nat
  /-- Member `size`. -/
  size : Nat
  /-- Member `events`. -/
  events : Nat
  /-- Member `wid`. -/
  wid : Nat
deriving DecidableEq

/-- What `event.c` takes from `ethereal/celestial.h` and `errno.h`, none of
which is in the sources: the constants, the two request functions with the
value each returns, and the macro `CELESTIAL_HANDLE_RESP_ERROR(resp, ret)`,
which either makes the caller return `ret` (here with the `errno` it leaves) or
lets it continue. -/
structure CelestialEnv (R : Type) where
  /-- Constant `CELESTIAL_MAGIC`. -/
  CELESTIAL_MAGIC : Nat
  /-- Constant `CELESTIAL_REQ_SUBSCRIBE`. -/
  CELESTIAL_REQ_SUBSCRIBE : Nat
  /-- Constant `CELESTIAL_REQ_UNSUBSCRIBE`. -/
  CELESTIAL_REQ_UNSUBSCRIBE : Nat
  /-- Value of `sizeof(celestial_req_subscribe_t)`. -/
  sizeof_req_subscribe : Nat
  /-- Constant `EINVAL`. -/
  EINVAL : Int
  /-- Return value of `celestial_sendRequest(&req, size)`. -/
  celestial_sendRequest : celestial_req_t → Nat → Int
  /-- Return value of `celestial_getResponse(type)`; `none` is `NULL`. -/
  celestial_getResponse : Nat → Option R
  /-- Macro `CELESTIAL_HANDLE_RESP_ERROR`: `some e` when it returns early. -/
  respError : R → Option Int

/-- What a call of `celestial_subscribe` / `celestial_unsubscribe` does: the
value returned, the value the function itself stored in `errno` (if any), and
the requests handed to `celestial_sendRequest`, with their size argument. -/
structure Outcome where
  /-- Return value. -/
  ret : Int
  /-- Value stored in `errno`. -/
  errno_written : Option Int
  /-- Requests sent. -/
  sent : List (celestial_req_t × Nat)
deriving DecidableEq

/-- The request built by `celestial_subscribe`. -/
def subscribe_req {R M : Type} (env : CelestialEnv R) (w : window_t M) (events : Nat) :
    celestial_req_t where
  magic := env.CELESTIAL_MAGIC
  type := env.CELESTIAL_REQ_SUBSCRIBE
  size := env.sizeof_req_subscribe
  events := events
  wid := w.wid

/-- The request built by `celestial_unsubscribe`; its `size` is
`sizeof(celestial_req_subscribe_t)` in the source. -/
def unsubscribe_req {R M : Type} (env : CelestialEnv R) (w : window_t M) (events : Nat) :
    celestial_req_t where
  magic := env.CELESTIAL_MAGIC
  type := env.CELESTIAL_REQ_UNSUBSCRIBE
  size := env.sizeof_req_subscribe
  events := events
  wid := w.wid

/-- The common body of `celestial_subscribe` and `celestial_unsubscribe` after
the argument check: send the request, wait for the response of the given type,
let `CELESTIAL_HANDLE_RESP_ERROR(resp, -1)` decide, return 0. -/
def celestial_request {R : Type} (env : CelestialEnv R) (req : celestial_req_t)
    (resp_type : Nat) : Outcome :=
  if env.celestial_sendRequest req req.size < 0 then ⟨-1, none, [(req, req.size)]⟩
  else
    match env.celestial_getResponse resp_type with
    | none => ⟨-1, none, [(req, req.size)]⟩
    | some resp =>
      match env.respError resp with
      | some e => ⟨-1, some e, [(req, req.size)]⟩
      | none => ⟨0, none, [(req, req.size)]⟩

/-- Function `celestial_subscribe(win, events)` of `event.c`; a `NULL` window
is `none`. -/
def celestial_subscribe {R M : Type} (env : CelestialEnv R) (win : Option (window_t M))
    (events : Nat) : Outcome :=
  match win with
  | none => ⟨-1, some env.EINVAL, []⟩
  | some w =>
    if events = 0 then ⟨-1, some env.EINVAL, []⟩
    else celestial_request env (subscribe_req env w events) env.CELESTIAL_REQ_SUBSCRIBE

/-- Function `celestial_unsubscribe(win, events)` of `event.c`; a `NULL` window
is `none`. -/
def celestial_unsubscribe {R M : Type} (env : CelestialEnv R) (win : Option (window_t M))
    (events : Nat) : Outcome :=
  match win with
  | none => ⟨-1, some env.EINVAL, []⟩
  | some w =>
    if events = 0 then ⟨-1, some env.EINVAL, []⟩
    else celestial_request env (unsubscribe_req env w events) env.CELESTIAL_REQ_UNSUBSCRIBE

/-- An environment for concrete runs: `celestial_sendRequest` returns `send`,
`celestial_getResponse` returns `resp`, and the error macro returns early with
`err` when it is `some`. The constants are sample values. -/
def CelestialEnv.concrete (send : Int) (resp : Option Nat) (err : Option Int) :
    CelestialEnv Nat where
  CELESTIAL_MAGIC := 0xCE1E571A
  CELESTIAL_REQ_SUBSCRIBE := 8
  CELESTIAL_REQ_UNSUBSCRIBE := 9
  sizeof_req_subscribe := 16
  EINVAL := 22
  celestial_sendRequest := fun _ _ => send
  celestial_getResponse := fun _ => resp
  respError := fun _ => err

/-! ## Auxiliary facts about bits of 64-bit words -/

theorem testBit_ge64 {a i : Nat} (ha : a < 2 ^ 64) (hi : 64 ≤ i) : a.testBit i = false :=
  Nat.testBit_lt_two_pow (Nat.lt_of_lt_of_le ha (Nat.pow_le_pow_right (by decide) hi))

theorem testBit_not64 {x : Nat} (hx : x < 2 ^ 64) (i : Nat) :
    (not64 x).testBit i = (decide (i < 64) && !x.testBit i) := by
  have h : not64 x = 2 ^ 64 - (x + 1) := by
    unfold not64 UINT64_MOD
    omega
  rw [h, Nat.testBit_two_pow_sub_succ hx]

theorem testBit_fieldmask (w off i : Nat) :
    (((2 ^ w - 1) <<< off).testBit i) = (decide (off ≤ i) && decide (i < off + w)) := by
  rw [Nat.testBit_shiftLeft, Nat.testBit_two_pow_sub_one]
  by_cases h : off ≤ i
  · have : (i - off < w) ↔ (i < off + w) := by omega
    simp [h, this]
  · simp [h]

theorem fieldmask_lt (w off : Nat) (hw : off + w ≤ 64) : (2 ^ w - 1) <<< off < 2 ^ 64 := by
  apply Nat.lt_pow_two_of_testBit
  intro i hi
  rw [testBit_fieldmask]
  have : ¬ (i < off + w) := by omega
  simp [this]

/-- Masking with a field mask extracts the field in place. -/
theorem land_fieldmask (d w off : Nat) :
    d &&& ((2 ^ w - 1) <<< off) = ((d >>> off) % 2 ^ w) <<< off := by
  apply Nat.eq_of_testBit_eq
  intro i
  rw [Nat.testBit_and, testBit_fieldmask, Nat.testBit_shiftLeft, Nat.testBit_mod_two_pow,
    Nat.testBit_shiftRight]
  by_cases h : off ≤ i
  · have h4 : off + (i - off) = i := by omega
    have h5 : (i - off < w) ↔ (i < off + w) := by omega
    simp [h, h4, h5, Bool.and_comm]
  · simp [h]

/-- Masking with the 64-bit complement of a field mask keeps what lies below
and above the field. -/
theorem land_not64_fieldmask (d w off : Nat) (hd : d < 2 ^ 64) (hw : off + w ≤ 64) :
    d &&& not64 ((2 ^ w - 1) <<< off)
      = d % 2 ^ off + d / 2 ^ (off + w) * 2 ^ (off + w) := by
  apply Nat.eq_of_testBit_eq
  intro i
  rw [Nat.testBit_and, testBit_not64 (fieldmask_lt w off hw), testBit_fieldmask,
    Nat.add_comm (d % 2 ^ off), Nat.mul_comm,
    Nat.testBit_mul_pow_two_add _ (Nat.lt_of_lt_of_le (Nat.mod_lt _ (Nat.two_pow_pos off))
      (Nat.pow_le_pow_right (by decide) (Nat.le_add_right off w))),
    Nat.testBit_mod_two_pow, ← Nat.shiftRight_eq_div_pow, Nat.testBit_shiftRight]
  by_cases h1 : i < off
  · have h2 : i < off + w := by omega
    have h3 : ¬ (off ≤ i) := by omega
    have h4 : i < 64 := by omega
    simp [h1, h2, h3, h4]
  · by_cases h2 : i < off + w
    · have h3 : off ≤ i := by omega
      simp [h1, h2, h3]
    · have h3 : off ≤ i := by omega
      have h4 : off + w + (i - (off + w)) = i := by omega
      by_cases h5 : i < 64
      · simp [h1, h2, h3, h4, h5]
      · simp [h1, h2, h3, h4, h5, testBit_ge64 hd (by omega : 64 ≤ i)]

/-- Writing a field value into the gap left by `land_not64_fieldmask`. -/
theorem lor_field (lo v hi w off : Nat) (hlo : lo < 2 ^ off) (hv : v < 2 ^ w) :
    (lo + hi * 2 ^ (off + w)) ||| (v <<< off) = lo + v * 2 ^ off + hi * 2 ^ (off + w) := by
  have e1 : lo + hi * 2 ^ (off + w) = 2 ^ off * (2 ^ w * hi) + lo := by
    rw [Nat.pow_add]; ring
  have e2 : lo + v * 2 ^ off + hi * 2 ^ (off + w) = 2 ^ off * (2 ^ w * hi + v) + lo := by
    rw [Nat.pow_add]; ring
  rw [e1, e2]
  apply Nat.eq_of_testBit_eq
  intro i
  rw [Nat.testBit_or, Nat.testBit_mul_pow_two_add _ hlo, Nat.testBit_mul_pow_two_add _ hlo,
    Nat.testBit_shiftLeft, Nat.testBit_mul_pow_two_add _ hv, Nat.testBit_mul_pow_two]
  by_cases h1 : i < off
  · have h3 : ¬ (i ≥ off) := by omega
    simp [h1, h3]
  · have h3 : i ≥ off := by omega
    by_cases h2 : i - off < w
    · have h4 : ¬ (i - off ≥ w) := by omega
      simp [h1, h2, h3, h4]
    · have h4 : i - off ≥ w := by omega
      simp [h1, h2, h3, h4,
        Nat.testBit_lt_two_pow (Nat.lt_of_lt_of_le hv (Nat.pow_le_pow_right (by decide) h4))]

theorem mask_fff : (0xFFF : Nat) = (2 ^ 12 - 1) <<< 0 := by decide

theorem mask_frame : (0x000000FFFFFFF000 : Nat) = (2 ^ 28 - 1) <<< 12 := by decide

theorem land_1ff (x : Nat) : x &&& 0x1FF = x % 512 :=
  Nat.and_pow_two_sub_one_eq_mod x 9

/-- The macro `MEM_ALIGN_PAGE_DESTRUCTIVE` in arithmetic form. -/
theorem MEM_ALIGN_PAGE_DESTRUCTIVE_eq (a : Nat) (ha : a < 2 ^ 64) :
    MEM_ALIGN_PAGE_DESTRUCTIVE a = a / 4096 * 4096 := by
  unfold MEM_ALIGN_PAGE_DESTRUCTIVE
  rw [mask_fff, land_not64_fieldmask a 12 0 ha (by decide)]
  simp [Nat.mod_one]

/-- The macro `MEM_ALIGN_PAGE` in arithmetic form. -/
theorem MEM_ALIGN_PAGE_eq (a : Nat) :
    MEM_ALIGN_PAGE a = (a + 4096) % 2 ^ 64 / 4096 * 4096 := by
  unfold MEM_ALIGN_PAGE PAGE_SIZE UINT64_MOD
  rw [mask_fff, land_not64_fieldmask _ 12 0 (Nat.mod_lt _ (by decide)) (by decide)]
  simp [Nat.mod_one]

/-- Index extraction in arithmetic form. -/
theorem index_eq (x s : Nat) : (x >>> s) &&& 0x1FF = x / 2 ^ s % 512 := by
  rw [land_1ff, Nat.shiftRight_eq_div_pow]

theorem index_testBit (x s i : Nat) :
    ((x >>> s) &&& 0x1FF).testBit i = (decide (i < 9) && x.testBit (s + i)) := by
  rw [land_1ff, show (512 : Nat) = 2 ^ 9 by decide, Nat.testBit_mod_two_pow,
    Nat.testBit_shiftRight]

/-- Bits of `MEM_ALIGN_PAGE_DESTRUCTIVE a`: bits 0..11 cleared, the others kept. -/
theorem MEM_ALIGN_PAGE_DESTRUCTIVE_testBit (a : Nat) (ha : a < 2 ^ 64) (i : Nat) :
    (MEM_ALIGN_PAGE_DESTRUCTIVE a).testBit i = (decide (12 ≤ i) && a.testBit i) := by
  rw [MEM_ALIGN_PAGE_DESTRUCTIVE_eq a ha, show (4096 : Nat) = 2 ^ 12 by decide, Nat.mul_comm,
    Nat.testBit_mul_pow_two, ← Nat.shiftRight_eq_div_pow, Nat.testBit_shiftRight]
  by_cases h : 12 ≤ i
  · have h4 : 12 + (i - 12) = i := by omega
    simp [h, h4]
  · simp [h]

/-- The macro `MEM_GET_FRAME` in arithmetic form. -/
theorem MEM_GET_FRAME_eq (e : page_t) :
    MEM_GET_FRAME e
      = if e.address * 2 ^ 12 % 2 ^ 32 < 2 ^ 31 then e.address * 2 ^ 12 % 2 ^ 32
        else e.address * 2 ^ 12 % 2 ^ 32 + (2 ^ 64 - 2 ^ 32) := by
  unfold MEM_GET_FRAME sext32 MEM_PAGE_SHIFT UINT64_MOD
  simp only [Nat.shiftLeft_eq]

/-- The field written by `MEM_SET_FRAME`. -/
theorem MEM_SET_FRAME_address (e : page_t) (F : Nat) :
    (MEM_SET_FRAME e F).address = F % 2 ^ 64 / 2 ^ 12 % 2 ^ 28 := by
  unfold MEM_SET_FRAME MEM_PAGE_SHIFT UINT64_MOD
  simp only [Nat.shiftRight_eq_div_pow]

/-- Reading the frame right after storing an aligned frame below `2 ^ 31`. -/
theorem MEM_GET_FRAME_SET_FRAME_of_lt (e : page_t) (F : Nat) (hal : F % 4096 = 0)
    (hF : F < 2 ^ 31) : MEM_GET_FRAME (MEM_SET_FRAME e F) = F := by
  rw [MEM_GET_FRAME_eq, MEM_SET_FRAME_address]
  have h : F % 2 ^ 64 / 2 ^ 12 % 2 ^ 28 * 2 ^ 12 % 2 ^ 32 = F := by omega
  rw [h, if_pos hF]

/-- The raw word of an entry after `MEM_SET_FRAME`, in arithmetic form. -/
theorem data_SET_FRAME_ofData (d F : Nat) (hd : d < 2 ^ 64) :
    (MEM_SET_FRAME (page_t.ofData d) F).data
      = d % 2 ^ 12 + F % 2 ^ 64 / 2 ^ 12 % 2 ^ 28 * 2 ^ 12 + d / 2 ^ 40 * 2 ^ 40 := by
  unfold MEM_SET_FRAME page_t.ofData page_t.data MEM_PAGE_SHIFT UINT64_MOD
  simp only [Nat.shiftRight_eq_div_pow]
  omega

/-! ## The canonical-address check -/

/-- C1: `MEM_IS_CANONICAL` is not the sign-extension test of bit 47. At
`0x0000800000000000` bit 47 is set and bit 48 is clear, so bits 48..63 are not
copies of bit 47, yet the macro answers true; it also answers true at
`0xFFFF000000000000`, where bit 47 is clear and bits 48..63 are set. The two
other sample addresses of the claim, `0` and `0xFFFFFFFF80000000`, are
accepted. -/
theorem MEM_IS_CANONICAL_ignores_bit47 :
    MEM_IS_CANONICAL 0x0000800000000000 = true
      ∧ Nat.testBit 0x0000800000000000 47 = true
      ∧ Nat.testBit 0x0000800000000000 48 = false
      ∧ MEM_IS_CANONICAL 0xFFFF000000000000 = true
      ∧ Nat.testBit 0xFFFF000000000000 47 = false
      ∧ Nat.testBit 0xFFFF000000000000 48 = true
      ∧ MEM_IS_CANONICAL 0x0000000000000000 = true
      ∧ MEM_IS_CANONICAL 0xFFFFFFFF80000000 = true := by
  decide

/-! ## Table indices -/

/-- C2: for every 64-bit address `a` the four index macros are
`(a >> 39) mod 512`, `(a >> 30) mod 512`, `(a >> 21) mod 512` and
`(a >> 12) mod 512`; bit `i` of each index is bit `39 + i`, `30 + i`, `21 + i`,
`12 + i` of `a` for `i < 9` and zero above; each index is below 512. -/
theorem MEM_INDEX_spec (a : Nat) (ha : a < 2 ^ 64) :
    (MEM_PML4_INDEX a = (a >>> 39) % 512 ∧ MEM_PDPT_INDEX a = (a >>> 30) % 512
        ∧ MEM_PAGEDIR_INDEX a = (a >>> 21) % 512 ∧ MEM_PAGETBL_INDEX a = (a >>> 12) % 512)
      ∧ (MEM_PML4_INDEX a = a / 2 ^ 39 % 2 ^ 9 ∧ MEM_PDPT_INDEX a = a / 2 ^ 30 % 2 ^ 9
        ∧ MEM_PAGEDIR_INDEX a = a / 2 ^ 21 % 2 ^ 9 ∧ MEM_PAGETBL_INDEX a = a / 2 ^ 12 % 2 ^ 9)
      ∧ (∀ i, (MEM_PML4_INDEX a).testBit i = (decide (i < 9) && a.testBit (39 + i))
        ∧ (MEM_PDPT_INDEX a).testBit i = (decide (i < 9) && a.testBit (30 + i))
        ∧ (MEM_PAGEDIR_INDEX a).testBit i = (decide (i < 9) && a.testBit (21 + i))
        ∧ (MEM_PAGETBL_INDEX a).testBit i = (decide (i < 9) && a.testBit (12 + i)))
      ∧ (MEM_PML4_INDEX a < 512 ∧ MEM_PDPT_INDEX a < 512
        ∧ MEM_PAGEDIR_INDEX a < 512 ∧ MEM_PAGETBL_INDEX a < 512) := by
  have _ := ha
  unfold MEM_PML4_INDEX MEM_PDPT_INDEX MEM_PAGEDIR_INDEX MEM_PAGETBL_INDEX MEM_PAGE_SHIFT
  refine ⟨⟨?_, ?_, ?_, ?_⟩, ⟨?_, ?_, ?_, ?_⟩, ?_, ⟨?_, ?_, ?_, ?_⟩⟩
  · exact land_1ff _
  · exact land_1ff _
  · exact land_1ff _
  · exact land_1ff _
  · exact index_eq a 39
  · exact index_eq a 30
  · exact index_eq a 21
  · exact index_eq a 12
  · intro i
    exact ⟨index_testBit a 39 i, index_testBit a 30 i, index_testBit a 21 i,
      index_testBit a 12 i⟩
  · rw [land_1ff]; exact Nat.mod_lt _ (by decide)
  · rw [land_1ff]; exact Nat.mod_lt _ (by decide)
  · rw [land_1ff]; exact Nat.mod_lt _ (by decide)
  · rw [land_1ff]; exact Nat.mod_lt _ (by decide)

/-- Witness for C2 at the address `0xFFFFFF0000001000`. -/
theorem MEM_INDEX_spec_witness :
    (0xFFFFFF0000001000 : Nat) < 2 ^ 64
      ∧ MEM_PML4_INDEX 0xFFFFFF0000001000 = (0xFFFFFF0000001000 >>> 39) % 512
      ∧ MEM_PAGETBL_INDEX 0xFFFFFF0000001000 < 512 :=
  ⟨by decide, (MEM_INDEX_spec 0xFFFFFF0000001000 (by decide)).1.1,
    (MEM_INDEX_spec 0xFFFFFF0000001000 (by decide)).2.2.2.2.2.2⟩

/-! ## Page alignment -/

/-- C3: `MEM_ALIGN_PAGE` adds a whole `PAGE_SIZE` before masking, so it does
not return a page-aligned address unchanged and is not idempotent: `0x1000` is
a multiple of 4096 with `0x1000 + 4095 < 2 ^ 64`, the smallest multiple of 4096
that is at least `0x1000` is `0x1000` itself, but the macro gives `0x2000`, and
applied again gives `0x3000`; likewise `0` is sent to `0x1000`. -/
theorem MEM_ALIGN_PAGE_skips_aligned :
    (0x1000 : Nat) % 4096 = 0 ∧ (0x1000 : Nat) + 4095 < 2 ^ 64
      ∧ MEM_ALIGN_PAGE 0x1000 = 0x2000
      ∧ MEM_ALIGN_PAGE (MEM_ALIGN_PAGE 0x1000) = 0x3000
      ∧ MEM_ALIGN_PAGE 0 = 0x1000
      ∧ ¬ (MEM_ALIGN_PAGE 0x1000 < 0x1000 + 4096) := by
  decide

/-- C4: for every 64-bit address `a`, `MEM_ALIGN_PAGE_DESTRUCTIVE a` is a
multiple of 4096, lies in `(a - 4096, a]`, is the largest multiple of 4096 not
above `a`, has bits 0..11 clear and bits 12 and up equal to those of `a`; the
macro is idempotent and monotone. -/
theorem MEM_ALIGN_PAGE_DESTRUCTIVE_spec (a : Nat) (ha : a < 2 ^ 64) :
    4096 ∣ MEM_ALIGN_PAGE_DESTRUCTIVE a
      ∧ MEM_ALIGN_PAGE_DESTRUCTIVE a ≤ a
      ∧ a < MEM_ALIGN_PAGE_DESTRUCTIVE a + 4096
      ∧ (∀ m, 4096 ∣ m → m ≤ a → m ≤ MEM_ALIGN_PAGE_DESTRUCTIVE a)
      ∧ (∀ i, 12 ≤ i → (MEM_ALIGN_PAGE_DESTRUCTIVE a).testBit i = a.testBit i)
      ∧ (∀ i, i < 12 → (MEM_ALIGN_PAGE_DESTRUCTIVE a).testBit i = false)
      ∧ MEM_ALIGN_PAGE_DESTRUCTIVE (MEM_ALIGN_PAGE_DESTRUCTIVE a) = MEM_ALIGN_PAGE_DESTRUCTIVE a
      ∧ (∀ b, b < 2 ^ 64 → a ≤ b →
          MEM_ALIGN_PAGE_DESTRUCTIVE a ≤ MEM_ALIGN_PAGE_DESTRUCTIVE b) := by
  have e := MEM_ALIGN_PAGE_DESTRUCTIVE_eq a ha
  have hle : MEM_ALIGN_PAGE_DESTRUCTIVE a ≤ a := by omega
  have hbits := MEM_ALIGN_PAGE_DESTRUCTIVE_testBit a ha
  refine ⟨⟨a / 4096, by omega⟩, hle, by omega, ?_, ?_, ?_, ?_, ?_⟩
  · rintro m ⟨k, rfl⟩ hm
    omega
  · intro i hi
    simp [hbits, hi]
  · intro i hi
    have : ¬ (12 ≤ i) := by omega
    simp [hbits, this]
  · rw [MEM_ALIGN_PAGE_DESTRUCTIVE_eq _ (Nat.lt_of_le_of_lt hle ha)]
    omega
  · intro b hb hab
    rw [MEM_ALIGN_PAGE_DESTRUCTIVE_eq b hb]
    omega

/-- Witness for C4 at the address `0xFFFFFF0000001ABC`. -/
theorem MEM_ALIGN_PAGE_DESTRUCTIVE_spec_witness :
    (0xFFFFFF0000001ABC : Nat) < 2 ^ 64
      ∧ 4096 ∣ MEM_ALIGN_PAGE_DESTRUCTIVE 0xFFFFFF0000001ABC
      ∧ MEM_ALIGN_PAGE_DESTRUCTIVE 0xFFFFFF0000001ABC ≤ 0xFFFFFF0000001ABC :=
  ⟨by decide, (MEM_ALIGN_PAGE_DESTRUCTIVE_spec 0xFFFFFF0000001ABC (by decide)).1,
    (MEM_ALIGN_PAGE_DESTRUCTIVE_spec 0xFFFFFF0000001ABC (by decide)).2.1⟩

/-! ## Frame accessors of `page_t` -/

/-- C5 (as stated, refuted): `0x10000000000 = 2 ^ 40` is a 64-bit address
aligned to 4096 bytes, but storing it with `MEM_SET_FRAME` in the all-zero
entry leaves the `address` field at 0, and reading `MEM_GET_FRAME` yields `0`:
the 28-bit field keeps only bits 12..39 of the frame. -/
theorem MEM_FRAME_roundtrip_fails_above_40_bits :
    (0x10000000000 : Nat) % 4096 = 0 ∧ (0x10000000000 : Nat) < 2 ^ 64
      ∧ (MEM_SET_FRAME (page_t.ofData 0) 0x10000000000).address = 0
      ∧ MEM_GET_FRAME (MEM_SET_FRAME (page_t.ofData 0) 0x10000000000) = 0
      ∧ MEM_GET_FRAME (MEM_SET_FRAME (page_t.ofData 0) 0x10000000000) ≠ 0x10000000000 := by
  decide

/-- C5 (amended): for every entry with raw word `d` and every physical address
`F < 2 ^ 40` aligned to 4096 bytes, `MEM_SET_FRAME` stores `F` exactly: the
`address` field is `F >> 12`, and bits 12..39 of the raw word are those of
`F`; if the reserved field of the entry was zero, it is zero afterwards, both
in the structure and when read back from the raw word; and for `F < 2 ^ 31`,
`MEM_GET_FRAME` then yields exactly `F`. Nothing is stated about what
`MEM_GET_FRAME` yields for `2 ^ 31 ≤ F < 2 ^ 40`. -/
theorem MEM_FRAME_roundtrip (d F : Nat) (hd : d < 2 ^ 64) (hF : F < 2 ^ 40)
    (hal : F % 4096 = 0) :
    (MEM_SET_FRAME (page_t.ofData d) F).address = F >>> 12
      ∧ (MEM_SET_FRAME (page_t.ofData d) F).address * 4096 = F
      ∧ (MEM_SET_FRAME (page_t.ofData d) F).data &&& 0x000000FFFFFFF000 = F
      ∧ (F < 2 ^ 31 → MEM_GET_FRAME (MEM_SET_FRAME (page_t.ofData d) F) = F)
      ∧ ((page_t.ofData d).reserved = 0 →
          (MEM_SET_FRAME (page_t.ofData d) F).reserved = 0
            ∧ (page_t.ofData (MEM_SET_FRAME (page_t.ofData d) F).data).reserved = 0) := by
  have haddr := MEM_SET_FRAME_address (page_t.ofData d) F
  have hdata := data_SET_FRAME_ofData d F hd
  refine ⟨?_, ?_, ?_, ?_, ?_⟩
  · rw [haddr, Nat.shiftRight_eq_div_pow]
    omega
  · rw [haddr]
    omega
  · rw [mask_frame, land_fieldmask, Nat.shiftLeft_eq, Nat.shiftRight_eq_div_pow, hdata]
    omega
  · intro h31
    exact MEM_GET_FRAME_SET_FRAME_of_lt _ F hal h31
  · intro hres
    refine ⟨hres, ?_⟩
    have hres2 : d / 2 ^ 40 % 2 ^ 12 = 0 := by
      simpa [page_t.ofData, Nat.shiftRight_eq_div_pow] using hres
    show ((MEM_SET_FRAME (page_t.ofData d) F).data >>> 40) % 2 ^ 12 = 0
    rw [Nat.shiftRight_eq_div_pow, hdata]
    omega

/-- Witness for C5 (amended): the entry `0x8000000000000003` and the frame
`0x12345000`. -/
theorem MEM_FRAME_roundtrip_witness :
    (0x8000000000000003 : Nat) < 2 ^ 64 ∧ (0x12345000 : Nat) < 2 ^ 40
      ∧ (0x12345000 : Nat) % 4096 = 0 ∧ (0x12345000 : Nat) < 2 ^ 31
      ∧ (MEM_SET_FRAME (page_t.ofData 0x8000000000000003) 0x12345000).data
          &&& 0x000000FFFFFFF000 = 0x12345000
      ∧ MEM_GET_FRAME (MEM_SET_FRAME (page_t.ofData 0x8000000000000003) 0x12345000)
          = 0x12345000
      ∧ (page_t.ofData 0x8000000000000003).reserved = 0
      ∧ (page_t.ofData
          (MEM_SET_FRAME (page_t.ofData 0x8000000000000003) 0x12345000).data).reserved = 0 :=
  ⟨by decide, by decide, by decide, by decide,
    (MEM_FRAME_roundtrip 0x8000000000000003 0x12345000 (by decide) (by decide)
      (by decide)).2.2.1,
    (MEM_FRAME_roundtrip 0x8000000000000003 0x12345000 (by decide) (by decide)
      (by decide)).2.2.2.1 (by decide),
    by decide,
    ((MEM_FRAME_roundtrip 0x8000000000000003 0x12345000 (by decide) (by decide)
      (by decide)).2.2.2.2 (by decide)).2⟩

/-- C6: the frame read back after `MEM_SET_FRAME` is not
`MEM_ALIGN_PAGE_DESTRUCTIVE F` for every `F < 2 ^ 40`. For `F = 0x80000000`
the field holds `0x80000`, the 32-bit shift gives the `int` `0x80000000`, which
is negative, and `MEM_GET_FRAME` yields `0xFFFFFFFF80000000`; for
`F = 0x100000000` the 32-bit shift overflows and `MEM_GET_FRAME` yields `0`.
Both frames are aligned and below `2 ^ 40`, and `MEM_ALIGN_PAGE_DESTRUCTIVE`
returns them unchanged. -/
theorem MEM_GET_FRAME_loses_frames_above_31_bits :
    (0x80000000 : Nat) < 2 ^ 40 ∧ (0x80000000 : Nat) % 4096 = 0
      ∧ (MEM_SET_FRAME (page_t.ofData 0) 0x80000000).address = 0x80000
      ∧ MEM_GET_FRAME (MEM_SET_FRAME (page_t.ofData 0) 0x80000000) = 0xFFFFFFFF80000000
      ∧ MEM_ALIGN_PAGE_DESTRUCTIVE 0x80000000 = 0x80000000
      ∧ (0x100000000 : Nat) < 2 ^ 40 ∧ (0x100000000 : Nat) % 4096 = 0
      ∧ (MEM_SET_FRAME (page_t.ofData 0) 0x100000000).address = 0x100000
      ∧ MEM_GET_FRAME (MEM_SET_FRAME (page_t.ofData 0) 0x100000000) = 0
      ∧ MEM_ALIGN_PAGE_DESTRUCTIVE 0x100000000 = 0x100000000
      ∧ MEM_GET_FRAME (MEM_SET_FRAME (page_t.ofData 0) 0x7FFFF000) = 0x7FFFF000 := by
  decide

/-- C7: `MEM_GET_FRAME` is not `d AND 0x000000FFFFFFF000` for every entry. For
the entry `0x801000FFFFFFF003` the `address` field is `0xFFFFFFF`, the mask
gives `0xFFFFFFF000`, and `MEM_GET_FRAME` yields `0xFFFFFFFFFFFFF000`; for the
entry `0x0000000080000000` the mask gives `0x80000000` and `MEM_GET_FRAME`
yields `0xFFFFFFFF80000000`. -/
theorem MEM_GET_FRAME_is_not_the_masked_word :
    (page_t.ofData 0x801000FFFFFFF003).address = 0xFFFFFFF
      ∧ 0x801000FFFFFFF003 &&& 0x000000FFFFFFF000 = 0xFFFFFFF000
      ∧ MEM_GET_FRAME (page_t.ofData 0x801000FFFFFFF003) = 0xFFFFFFFFFFFFF000
      ∧ 0x0000000080000000 &&& 0x000000FFFFFFF000 = 0x80000000
      ∧ MEM_GET_FRAME (page_t.ofData 0x0000000080000000) = 0xFFFFFFFF80000000
      ∧ MEM_GET_FRAME (page_t.ofData 0x8000000012345003)
          = 0x8000000012345003 &&& 0x000000FFFFFFF000 := by
  decide

/-- C8: for every entry with raw word `d` and every 64-bit value `F`, the raw
word after `MEM_SET_FRAME` is
`(d AND NOT 0x000000FFFFFFF000) OR (((F >> 12) mod 2 ^ 28) << 12)`; every bit
outside 12..39 is the bit of `d`; every field other than `address` is
unchanged; and the reserved bits 40..51 read back as zero if they were zero. -/
theorem MEM_SET_FRAME_frame_only (d F : Nat) (hd : d < 2 ^ 64) (hF : F < 2 ^ 64) :
    (MEM_SET_FRAME (page_t.ofData d) F).data
        = (d &&& not64 0x000000FFFFFFF000) ||| (((F >>> 12) % 2 ^ 28) <<< 12)
      ∧ (∀ i, i < 12 ∨ 40 ≤ i →
          (MEM_SET_FRAME (page_t.ofData d) F).data.testBit i = d.testBit i)
      ∧ (MEM_SET_FRAME (page_t.ofData d) F).data < 2 ^ 64
      ∧ ((MEM_SET_FRAME (page_t.ofData d) F).present = (page_t.ofData d).present
        ∧ (MEM_SET_FRAME (page_t.ofData d) F).rw = (page_t.ofData d).rw
        ∧ (MEM_SET_FRAME (page_t.ofData d) F).usermode = (page_t.ofData d).usermode
        ∧ (MEM_SET_FRAME (page_t.ofData d) F).writethrough = (page_t.ofData d).writethrough
        ∧ (MEM_SET_FRAME (page_t.ofData d) F).cache_disable = (page_t.ofData d).cache_disable
        ∧ (MEM_SET_FRAME (page_t.ofData d) F).accessed = (page_t.ofData d).accessed
        ∧ (MEM_SET_FRAME (page_t.ofData d) F).dirty = (page_t.ofData d).dirty
        ∧ (MEM_SET_FRAME (page_t.ofData d) F).size = (page_t.ofData d).size
        ∧ (MEM_SET_FRAME (page_t.ofData d) F).global = (page_t.ofData d).global
        ∧ (MEM_SET_FRAME (page_t.ofData d) F).available2 = (page_t.ofData d).available2
        ∧ (MEM_SET_FRAME (page_t.ofData d) F).reserved = (page_t.ofData d).reserved
        ∧ (MEM_SET_FRAME (page_t.ofData d) F).cow = (page_t.ofData d).cow
        ∧ (MEM_SET_FRAME (page_t.ofData d) F).available3 = (page_t.ofData d).available3
        ∧ (MEM_SET_FRAME (page_t.ofData d) F).nx = (page_t.ofData d).nx)
      ∧ ((page_t.ofData d).reserved = 0 →
          (page_t.ofData (MEM_SET_FRAME (page_t.ofData d) F).data).reserved = 0) := by
  have hdata := data_SET_FRAME_ofData d F hd
  have hv : (F >>> 12) % 2 ^ 28 < 2 ^ 28 := Nat.mod_lt _ (by decide)
  have hraw : (MEM_SET_FRAME (page_t.ofData d) F).data
      = (d &&& not64 0x000000FFFFFFF000) ||| (((F >>> 12) % 2 ^ 28) <<< 12) := by
    rw [mask_frame, land_not64_fieldmask d 28 12 hd (by decide),
      lor_field _ _ _ 28 12 (Nat.mod_lt _ (by decide)) hv, hdata, Nat.shiftRight_eq_div_pow,
      Nat.mod_eq_of_lt hF]
  refine ⟨hraw, ?_, ?_, ?_, ?_⟩
  · intro i hi
    rw [hraw, Nat.testBit_or, Nat.testBit_and, mask_frame,
      testBit_not64 (fieldmask_lt 28 12 (by decide)), testBit_fieldmask, Nat.testBit_shiftLeft]
    rcases hi with hi | hi
    · have h1 : ¬ (12 ≤ i) := by omega
      have h2 : i < 64 := by omega
      have h3 : ¬ (i ≥ 12) := by omega
      simp [h1, h2, h3]
    · have h1 : 12 ≤ i := by omega
      have h2 : ¬ (i < 12 + 28) := by omega
      have h3 : ((F >>> 12) % 2 ^ 28).testBit (i - 12) = false :=
        Nat.testBit_lt_two_pow (Nat.lt_of_lt_of_le hv
          (Nat.pow_le_pow_right (by decide) (by omega)))
      rw [h3]
      by_cases h4 : i < 64
      · simp [h1, h2, h4]
      · simp [h1, h2, h4, testBit_ge64 hd (by omega : 64 ≤ i)]
  · rw [hdata]
    omega
  · exact ⟨rfl, rfl, rfl, rfl, rfl, rfl, rfl, rfl, rfl, rfl, rfl, rfl, rfl, rfl⟩
  · intro hres
    have hres2 : d / 2 ^ 40 % 2 ^ 12 = 0 := by
      simpa [page_t.ofData, Nat.shiftRight_eq_div_pow] using hres
    show ((MEM_SET_FRAME (page_t.ofData d) F).data >>> 40) % 2 ^ 12 = 0
    rw [Nat.shiftRight_eq_div_pow, hdata]
    omega

/-- Witness for C8: the entry `0x8010000012345003` and the unaligned value
`0xFFFFFFFFFFFFFABC`, which is above `2 ^ 40`. -/
theorem MEM_SET_FRAME_frame_only_witness :
    (0x8010000012345003 : Nat) < 2 ^ 64 ∧ (0xFFFFFFFFFFFFFABC : Nat) < 2 ^ 64
      ∧ (MEM_SET_FRAME (page_t.ofData 0x8010000012345003) 0xFFFFFFFFFFFFFABC).data
          = (0x8010000012345003 &&& not64 0x000000FFFFFFF000)
              ||| (((0xFFFFFFFFFFFFFABC >>> 12) % 2 ^ 28) <<< 12)
      ∧ (MEM_SET_FRAME (page_t.ofData 0x8010000012345003) 0xFFFFFFFFFFFFFABC).data
          = 0x801000FFFFFFF003
      ∧ (page_t.ofData 0x8010000012345003).reserved = 0
      ∧ (page_t.ofData
          (MEM_SET_FRAME (page_t.ofData 0x8010000012345003) 0xFFFFFFFFFFFFFABC).data).reserved
          = 0 :=
  ⟨by decide, by decide,
    (MEM_SET_FRAME_frame_only 0x8010000012345003 0xFFFFFFFFFFFFFABC
      (by decide) (by decide)).1,
    by decide, by decide,
    (MEM_SET_FRAME_frame_only 0x8010000012345003 0xFFFFFFFFFFFFFABC
      (by decide) (by decide)).2.2.2.2 (by decide)⟩

/-! ## Address-space regions -/

/-- Regions related by `Region.disjoint` have no address in common. -/
theorem Region_disjoint_no_common_address (r s : Region) (h : r.disjoint s) (x : Nat) :
    ¬ (r.contains x ∧ s.contains x) := by
  unfold Region.disjoint at h
  unfold Region.contains
  omega

/-- C9 (as stated, refuted): Userspace and Usermode-Stack are distinct regions
whose intervals are not disjoint; the address `0x0000060000000000`
(`MEM_USERMODE_STACK_REGION`) lies in both. -/
theorem Region_userspace_overlaps_usermode_stack :
    Region.userspace ≠ Region.usermode_stack
      ∧ ¬ Region.disjoint Region.userspace Region.usermode_stack
      ∧ Region.contains Region.userspace 0x0000060000000000
      ∧ Region.contains Region.usermode_stack 0x0000060000000000 := by
  decide

/-- C9 (amended): two distinct regions among Userspace, Usermode-Stack, DMA,
Physical-Memory-Identity-Map, MMIO and Driver have no address in common unless
they are Userspace and Usermode-Stack; the Usermode-Stack interval lies inside
the Userspace interval and ends where it ends; every interval is non-empty and
ends at or below `2 ^ 64`; and the bases of Usermode-Device, Framebuffer and
Heap lie in none of the six intervals. -/
theorem Region_disjoint_except_usermode_stack (r s : Region) (h : r ≠ s) :
    ((r.disjoint s ∧ ∀ x, ¬ (r.contains x ∧ s.contains x))
        ∨ (r = Region.userspace ∧ s = Region.usermode_stack)
        ∨ (r = Region.usermode_stack ∧ s = Region.userspace))
      ∧ (Region.userspace.base ≤ Region.usermode_stack.base
        ∧ Region.usermode_stack.limit = Region.userspace.limit)
      ∧ (r.base < r.limit ∧ r.limit ≤ 2 ^ 64)
      ∧ (∀ t : Region, ¬ t.contains MEM_USERMODE_DEVICE_REGION
        ∧ ¬ t.contains MEM_FRAMEBUFFER_REGION ∧ ¬ t.contains MEM_HEAP_REGION) := by
  refine ⟨?_, by decide, ?_, ?_⟩
  · by_cases hd : r.disjoint s
    · exact Or.inl ⟨hd, Region_disjoint_no_common_address r s hd⟩
    · right
      revert h hd
      cases r <;> cases s <;> decide
  · cases r <;> decide
  · intro t
    cases t <;> decide

/-- Witness for C9 (amended): the DMA and MMIO regions. -/
theorem Region_disjoint_except_usermode_stack_witness :
    Region.dma ≠ Region.mmio ∧ Region.disjoint Region.dma Region.mmio :=
  ⟨by decide,
    ((Region_disjoint_except_usermode_stack Region.dma Region.mmio (by decide)).1.resolve_right
      (by decide)).1⟩

/-- C10: the memory-map comment and the constants disagree on three of the six
regions. The comment ends Userspace at `0x0000700000000000`, the constant
`MEM_USERSPACE_REGION_END` is `0x0000070000000000`; the comment puts the
Usermode stack at `0x0000600000000000 - 0x0000700000000000`, the constants give
`0x0000060000000000 - 0x0000070000000000`; the comment puts DMA at
`0x0000700000000000 - 0x0000800000000000`, the constants give
`0x0000070000000000 - 0x0000070100000000`. The identity-map, MMIO and Driver
lines, and the start of Userspace, agree with the constants. -/
theorem Region_documented_disagrees_with_constants :
    (Region.documented Region.userspace).1 = Region.userspace.base
      ∧ (Region.documented Region.userspace).2 = 0x0000700000000000
      ∧ Region.userspace.limit = 0x0000070000000000
      ∧ Region.documented Region.usermode_stack = (0x0000600000000000, 0x0000700000000000)
      ∧ (Region.usermode_stack.base, Region.usermode_stack.limit)
          = (0x0000060000000000, 0x0000070000000000)
      ∧ Region.documented Region.dma = (0x0000700000000000, 0x0000800000000000)
      ∧ (Region.dma.base, Region.dma.limit) = (0x0000070000000000, 0x0000070100000000)
      ∧ Region.documented Region.physmem_map
          = (Region.physmem_map.base, Region.physmem_map.limit)
      ∧ Region.documented Region.mmio = (Region.mmio.base, Region.mmio.limit)
      ∧ Region.documented Region.driver = (Region.driver.base, Region.driver.limit) := by
  decide

/-- C11: the virtual address `0xFFFFFF0000001000` has table index 1
(`MEM_PAGETBL_INDEX`), is at or above `MEM_HEAP_REGION`, below the documented
heap end `0xFFFFFF0000010000` and below `MEM_PHYSMEM_MAP_REGION`, and lies in
none of the intervals of Userspace, Usermode-Stack, DMA, identity map, MMIO and
Driver. -/
theorem heap_address_index_and_region :
    MEM_PAGETBL_INDEX 0xFFFFFF0000001000 = 1
      ∧ MEM_HEAP_REGION ≤ 0xFFFFFF0000001000
      ∧ 0xFFFFFF0000001000 < MEM_HEAP_DOCUMENTED_END
      ∧ 0xFFFFFF0000001000 < MEM_PHYSMEM_MAP_REGION
      ∧ ¬ Region.userspace.contains 0xFFFFFF0000001000
      ∧ ¬ Region.usermode_stack.contains 0xFFFFFF0000001000
      ∧ ¬ Region.dma.contains 0xFFFFFF0000001000
      ∧ ¬ Region.physmem_map.contains 0xFFFFFF0000001000
      ∧ ¬ Region.mmio.contains 0xFFFFFF0000001000
      ∧ ¬ Region.driver.contains 0xFFFFFF0000001000 := by
  decide

/-! ## The two views of `page_t` -/

/-- Bits of the field of width `w` at offset `off` of the raw word `d`. -/
theorem field_testBit (d off w i : Nat) :
    ((d >>> off) % 2 ^ w).testBit i = (decide (i < w) && d.testBit (off + i)) := by
  rw [Nat.testBit_mod_two_pow, Nat.testBit_shiftRight]

/-- A one-bit field is the bit at its offset. -/
theorem field_one_bit (d off : Nat) : (d >>> off) % 2 ^ 1 = (d.testBit off).toNat := by
  rw [Nat.toNat_testBit, Nat.shiftRight_eq_div_pow, Nat.pow_one]

/-- Rebuilding the raw word from the bit-fields read out of it. -/
theorem data_ofData (d : Nat) (hd : d < 2 ^ 64) : (page_t.ofData d).data = d := by
  unfold page_t.ofData page_t.data
  simp only [Nat.shiftRight_eq_div_pow]
  omega

/-- Reading the bit-fields out of the raw word built from them. -/
theorem ofData_data (p : page_t) (hp : p.valid) : page_t.ofData p.data = p := by
  obtain ⟨a0, a1, a2, a3, a4, a5, a6, a7, a8, a9, a10, a11, a12, a13, a14⟩ := p
  simp only [page_t.valid] at hp
  simp only [page_t.ofData, page_t.data, Nat.shiftRight_eq_div_pow, page_t.mk.injEq]
  omega

/-- The bit-fields read out of a raw word respect their declared widths. -/
theorem ofData_valid (d : Nat) : (page_t.ofData d).valid := by
  unfold page_t.valid page_t.ofData
  refine ⟨?_, ?_, ?_, ?_, ?_, ?_, ?_, ?_, ?_, ?_, ?_, ?_, ?_, ?_, ?_⟩ <;>
    exact Nat.mod_lt _ (Nat.two_pow_pos _)

/-- The raw word built from valid bit-fields is a 64-bit value. -/
theorem data_lt (p : page_t) (hp : p.valid) : p.data < 2 ^ 64 := by
  simp only [page_t.valid] at hp
  unfold page_t.data
  omega

/-- C12: the widths of the fifteen bit-fields of `page_t` add up to 64 and put
the fields at bits 0, 1, 2, 3, 4, 5, 6, 7, 8, 9, 12, 40, 52, 53 and 63; for
every raw value `d`, `present` is bit 0, `rw` bit 1, `usermode` bit 2,
`writethrough` bit 3, `cache_disable` bit 4, `accessed` bit 5, `dirty` bit 6,
`size` bit 7, `global` bit 8, `available2` bits 9..11, `address` bits 12..39,
`reserved` bits 40..51, `cow` bit 52, `available3` bits 53..62 and `nx` bit
63; rebuilding the raw value from the fields yields `d`; and conversely fields
of their declared widths are read back unchanged from the raw value they
build. -/
theorem page_t_views_agree (d : Nat) (hd : d < 2 ^ 64) (p : page_t) (hp : p.valid) :
    (page_t.widths.sum = 64 ∧ page_t.widths.length = 15
        ∧ (List.range 15).map page_t.offset
            = [0, 1, 2, 3, 4, 5, 6, 7, 8, 9, 12, 40, 52, 53, 63])
      ∧ ((page_t.ofData d).present = (d.testBit 0).toNat
        ∧ (page_t.ofData d).rw = (d.testBit 1).toNat
        ∧ (page_t.ofData d).usermode = (d.testBit 2).toNat
        ∧ (page_t.ofData d).writethrough = (d.testBit 3).toNat
        ∧ (page_t.ofData d).cache_disable = (d.testBit 4).toNat
        ∧ (page_t.ofData d).accessed = (d.testBit 5).toNat
        ∧ (page_t.ofData d).dirty = (d.testBit 6).toNat
        ∧ (page_t.ofData d).size = (d.testBit 7).toNat
        ∧ (page_t.ofData d).global = (d.testBit 8).toNat
        ∧ (page_t.ofData d).cow = (d.testBit 52).toNat
        ∧ (page_t.ofData d).nx = (d.testBit 63).toNat)
      ∧ (∀ i, (page_t.ofData d).available2.testBit i = (decide (i < 3) && d.testBit (9 + i))
        ∧ (page_t.ofData d).address.testBit i = (decide (i < 28) && d.testBit (12 + i))
        ∧ (page_t.ofData d).reserved.testBit i = (decide (i < 12) && d.testBit (40 + i))
        ∧ (page_t.ofData d).available3.testBit i = (decide (i < 10) && d.testBit (53 + i)))
      ∧ (page_t.ofData d).valid
      ∧ (page_t.ofData d).data = d
      ∧ (p.data < 2 ^ 64 ∧ page_t.ofData p.data = p) := by
  refine ⟨by decide, ⟨?_, ?_, ?_, ?_, ?_, ?_, ?_, ?_, ?_, ?_, ?_⟩, ?_, ofData_valid d,
    data_ofData d hd, data_lt p hp, ofData_data p hp⟩
  · exact field_one_bit d 0
  · exact field_one_bit d 1
  · exact field_one_bit d 2
  · exact field_one_bit d 3
  · exact field_one_bit d 4
  · exact field_one_bit d 5
  · exact field_one_bit d 6
  · exact field_one_bit d 7
  · exact field_one_bit d 8
  · exact field_one_bit d 52
  · exact field_one_bit d 63
  · intro i
    exact ⟨field_testBit d 9 3 i, field_testBit d 12 28 i, field_testBit d 40 12 i,
      field_testBit d 53 10 i⟩

/-- Witness for C12: the raw word `0x8010000012345E03` and the entry it holds. -/
theorem page_t_views_agree_witness :
    (0x8010000012345E03 : Nat) < 2 ^ 64
      ∧ (page_t.ofData 0x8010000012345E03).valid
      ∧ (page_t.ofData 0x8010000012345E03).data = 0x8010000012345E03
      ∧ (page_t.ofData 0x8010000012345E03).address = 0x12345
      ∧ (page_t.ofData 0x8010000012345E03).available2 = 7
      ∧ (page_t.ofData 0x8010000012345E03).cow = 1
      ∧ (page_t.ofData 0x8010000012345E03).nx = (Nat.testBit 0x8010000012345E03 63).toNat :=
  ⟨by decide, by decide,
    (page_t_views_agree 0x8010000012345E03 (by decide) (page_t.ofData 0x8010000012345E03)
      (by decide)).2.2.2.2.1,
    by decide, by decide, by decide,
    (page_t_views_agree 0x8010000012345E03 (by decide) (page_t.ofData 0x8010000012345E03)
      (by decide)).2.1.2.2.2.2.2.2.2.2.2.2⟩

/-! ## What the macros compute -/

theorem mask_high16 : (0xFFFF000000000000 : Nat) = (2 ^ 16 - 1) <<< 48 := by decide

/-- The macro `MEM_IS_CANONICAL` accepts exactly the addresses whose 16-bit
field at bit 48 is all ones or all zeros. -/
theorem MEM_IS_CANONICAL_iff (a : Nat) :
    MEM_IS_CANONICAL a = true
      ↔ ((a >>> 48) % 2 ^ 16 = 2 ^ 16 - 1 ∨ (a >>> 48) % 2 ^ 16 = 0) := by
  unfold MEM_IS_CANONICAL
  rw [mask_high16, land_fieldmask]
  have hlt : (a >>> 48) % 2 ^ 16 < 2 ^ 16 := Nat.mod_lt _ (by decide)
  simp only [Nat.shiftLeft_eq, Bool.or_eq_true, beq_iff_eq]
  constructor
  · rintro (h | h)
    · left; omega
    · right; omega
  · rintro (h | h)
    · left; rw [h]
    · right; rw [h]

/-- C16: for every 64-bit address `a`, if bits 48..63 all equal bit 47 then
`MEM_IS_CANONICAL a` is true; and if `MEM_IS_CANONICAL a` is true then bits
48..63 of `a` are all zero or all one. -/
theorem MEM_IS_CANONICAL_accepts_canonical (a : Nat) (ha : a < 2 ^ 64) :
    ((∀ i, 48 ≤ i → i < 64 → a.testBit i = a.testBit 47) → MEM_IS_CANONICAL a = true)
      ∧ (MEM_IS_CANONICAL a = true →
          (∀ i, 48 ≤ i → i < 64 → a.testBit i = false)
            ∨ (∀ i, 48 ≤ i → i < 64 → a.testBit i = true)) := by
  have _ := ha
  refine ⟨?_, ?_⟩
  · intro h
    rw [MEM_IS_CANONICAL_iff]
    cases h47 : a.testBit 47
    · right
      apply Nat.eq_of_testBit_eq
      intro j
      rw [field_testBit, Nat.zero_testBit]
      by_cases hj : j < 16
      · rw [h (48 + j) (by omega) (by omega), h47]
        simp
      · simp [hj]
    · left
      apply Nat.eq_of_testBit_eq
      intro j
      rw [field_testBit, Nat.testBit_two_pow_sub_one]
      by_cases hj : j < 16
      · rw [h (48 + j) (by omega) (by omega), h47]
        simp [hj]
      · simp [hj]
  · intro h
    rw [MEM_IS_CANONICAL_iff] at h
    have hbit : ∀ i, 48 ≤ i → i < 64 →
        a.testBit i = ((a >>> 48) % 2 ^ 16).testBit (i - 48) := by
      intro i h1 h2
      have h3 : i - 48 < 16 := by omega
      have h4 : 48 + (i - 48) = i := by omega
      rw [field_testBit, h4]
      simp [h3]
    rcases h with h | h
    · right
      intro i h1 h2
      have h3 : i - 48 < 16 := by omega
      rw [hbit i h1 h2, h, Nat.testBit_two_pow_sub_one]
      simp [h3]
    · left
      intro i h1 h2
      rw [hbit i h1 h2, h, Nat.zero_testBit]

/-- Witness for C16: the kernel address `0xFFFFFFFF80000000`. -/
theorem MEM_IS_CANONICAL_accepts_canonical_witness :
    (0xFFFFFFFF80000000 : Nat) < 2 ^ 64
      ∧ (∀ i, 48 ≤ i → i < 64 →
          Nat.testBit 0xFFFFFFFF80000000 i = Nat.testBit 0xFFFFFFFF80000000 47)
      ∧ MEM_IS_CANONICAL 0xFFFFFFFF80000000 = true :=
  ⟨by decide,
    by
      intro i h1 h2
      interval_cases i <;> decide,
    (MEM_IS_CANONICAL_accepts_canonical 0xFFFFFFFF80000000 (by decide)).1 (by
      intro i h1 h2
      interval_cases i <;> decide)⟩

/-- C17: for every 64-bit address `a`, the four indices shifted back to bits
39, 30, 21 and 12 and combined with the page offset `a AND 0xFFF` give
`a AND 0x0000FFFFFFFFFFFF`; an address `b` with the same four indices and the
same page offset agrees with `a` on bits 0..47; and an address `b` in the same
4096-byte page as `a` has the same four indices. -/
theorem MEM_INDEX_determine_low_48_bits (a b : Nat) (ha : a < 2 ^ 64) (hb : b < 2 ^ 64) :
    ((MEM_PML4_INDEX a <<< 39) ||| (MEM_PDPT_INDEX a <<< 30) ||| (MEM_PAGEDIR_INDEX a <<< 21)
        ||| (MEM_PAGETBL_INDEX a <<< 12) ||| (a &&& 0xFFF)) = a &&& 0x0000FFFFFFFFFFFF
      ∧ (MEM_PML4_INDEX a = MEM_PML4_INDEX b → MEM_PDPT_INDEX a = MEM_PDPT_INDEX b →
          MEM_PAGEDIR_INDEX a = MEM_PAGEDIR_INDEX b →
          MEM_PAGETBL_INDEX a = MEM_PAGETBL_INDEX b → a &&& 0xFFF = b &&& 0xFFF →
          a % 2 ^ 48 = b % 2 ^ 48 ∧ ∀ i, i < 48 → a.testBit i = b.testBit i)
      ∧ (MEM_ALIGN_PAGE_DESTRUCTIVE a = MEM_ALIGN_PAGE_DESTRUCTIVE b →
          MEM_PML4_INDEX a = MEM_PML4_INDEX b ∧ MEM_PDPT_INDEX a = MEM_PDPT_INDEX b
            ∧ MEM_PAGEDIR_INDEX a = MEM_PAGEDIR_INDEX b
            ∧ MEM_PAGETBL_INDEX a = MEM_PAGETBL_INDEX b) := by
  have e4 : ∀ x, MEM_PML4_INDEX x = x / 2 ^ 39 % 512 := fun x => index_eq x 39
  have e3 : ∀ x, MEM_PDPT_INDEX x = x / 2 ^ 30 % 512 := fun x => index_eq x 30
  have e2 : ∀ x, MEM_PAGEDIR_INDEX x = x / 2 ^ 21 % 512 := fun x => index_eq x 21
  have e1 : ∀ x, MEM_PAGETBL_INDEX x = x / 2 ^ 12 % 512 := fun x => index_eq x 12
  have e0 : ∀ x : Nat, x &&& 0xFFF = x % 2 ^ 12 := fun x => Nat.and_pow_two_sub_one_eq_mod x 12
  have e48 : ∀ x : Nat, x &&& 0x0000FFFFFFFFFFFF = x % 2 ^ 48 :=
    fun x => Nat.and_pow_two_sub_one_eq_mod x 48
  refine ⟨?_, ?_, ?_⟩
  · rw [e4, e3, e2, e1, e0, e48]
    simp only [Nat.shiftLeft_eq, Nat.or_assoc]
    have h1 : a / 2 ^ 12 % 512 * 2 ^ 12 ||| a % 2 ^ 12
        = 2 ^ 12 * (a / 2 ^ 12 % 512) + a % 2 ^ 12 := by
      rw [Nat.mul_comm]
      exact (Nat.mul_add_lt_is_or (Nat.mod_lt _ (by decide)) _).symm
    have h2 : a / 2 ^ 21 % 512 * 2 ^ 21 ||| (2 ^ 12 * (a / 2 ^ 12 % 512) + a % 2 ^ 12)
        = 2 ^ 21 * (a / 2 ^ 21 % 512) + (2 ^ 12 * (a / 2 ^ 12 % 512) + a % 2 ^ 12) := by
      rw [Nat.mul_comm]
      exact (Nat.mul_add_lt_is_or (by omega) _).symm
    have h3 : a / 2 ^ 30 % 512 * 2 ^ 30
          ||| (2 ^ 21 * (a / 2 ^ 21 % 512) + (2 ^ 12 * (a / 2 ^ 12 % 512) + a % 2 ^ 12))
        = 2 ^ 30 * (a / 2 ^ 30 % 512)
          + (2 ^ 21 * (a / 2 ^ 21 % 512) + (2 ^ 12 * (a / 2 ^ 12 % 512) + a % 2 ^ 12)) := by
      rw [Nat.mul_comm]
      exact (Nat.mul_add_lt_is_or (by omega) _).symm
    have h4 : a / 2 ^ 39 % 512 * 2 ^ 39
          ||| (2 ^ 30 * (a / 2 ^ 30 % 512)
            + (2 ^ 21 * (a / 2 ^ 21 % 512) + (2 ^ 12 * (a / 2 ^ 12 % 512) + a % 2 ^ 12)))
        = 2 ^ 39 * (a / 2 ^ 39 % 512)
          + (2 ^ 30 * (a / 2 ^ 30 % 512)
            + (2 ^ 21 * (a / 2 ^ 21 % 512) + (2 ^ 12 * (a / 2 ^ 12 % 512) + a % 2 ^ 12))) := by
      rw [Nat.mul_comm]
      exact (Nat.mul_add_lt_is_or (by omega) _).symm
    rw [h1, h2, h3, h4]
    omega
  · intro h4 h3 h2 h1 h0
    rw [e4, e4] at h4
    rw [e3, e3] at h3
    rw [e2, e2] at h2
    rw [e1, e1] at h1
    rw [e0, e0] at h0
    have hmod : a % 2 ^ 48 = b % 2 ^ 48 := by omega
    refine ⟨hmod, ?_⟩
    intro i hi
    have ta := Nat.testBit_mod_two_pow a 48 i
    have tb := Nat.testBit_mod_two_pow b 48 i
    rw [hmod] at ta
    rw [ta] at tb
    simpa [hi] using tb
  · intro h
    rw [MEM_ALIGN_PAGE_DESTRUCTIVE_eq a ha, MEM_ALIGN_PAGE_DESTRUCTIVE_eq b hb] at h
    rw [e4, e4, e3, e3, e2, e2, e1, e1]
    omega

/-- Witness for C17: the addresses `0xFFFFFF0000001ABC` and `0x0000FF0000001ABC`
differ only in bits 48..63. -/
theorem MEM_INDEX_determine_low_48_bits_witness :
    (0xFFFFFF0000001ABC : Nat) < 2 ^ 64 ∧ (0x0000FF0000001ABC : Nat) < 2 ^ 64
      ∧ ((MEM_PML4_INDEX 0xFFFFFF0000001ABC <<< 39) ||| (MEM_PDPT_INDEX 0xFFFFFF0000001ABC <<< 30)
          ||| (MEM_PAGEDIR_INDEX 0xFFFFFF0000001ABC <<< 21)
          ||| (MEM_PAGETBL_INDEX 0xFFFFFF0000001ABC <<< 12) ||| (0xFFFFFF0000001ABC &&& 0xFFF))
          = 0xFFFFFF0000001ABC &&& 0x0000FFFFFFFFFFFF
      ∧ (0xFFFFFF0000001ABC : Nat) % 2 ^ 48 = 0x0000FF0000001ABC % 2 ^ 48 :=
  ⟨by decide, by decide,
    (MEM_INDEX_determine_low_48_bits 0xFFFFFF0000001ABC 0x0000FF0000001ABC
      (by decide) (by decide)).1,
    ((MEM_INDEX_determine_low_48_bits 0xFFFFFF0000001ABC 0x0000FF0000001ABC
      (by decide) (by decide)).2.1 (by decide) (by decide) (by decide) (by decide)
      (by decide)).1⟩

/-- C18: for every 64-bit address `a`, `MEM_ALIGN_PAGE a` is
`(MEM_ALIGN_PAGE_DESTRUCTIVE a + 4096) mod 2 ^ 64`; it is a multiple of 4096;
for `a < 2 ^ 64 - 4096` it exceeds `a` by at least 1 and at most 4096; and for
`a ≥ 2 ^ 64 - 4096` it is 0. -/
theorem MEM_ALIGN_PAGE_next_page (a : Nat) (ha : a < 2 ^ 64) :
    MEM_ALIGN_PAGE a = (MEM_ALIGN_PAGE_DESTRUCTIVE a + 4096) % 2 ^ 64
      ∧ 4096 ∣ MEM_ALIGN_PAGE a
      ∧ (a < 2 ^ 64 - 4096 → a + 1 ≤ MEM_ALIGN_PAGE a ∧ MEM_ALIGN_PAGE a ≤ a + 4096)
      ∧ (2 ^ 64 - 4096 ≤ a → MEM_ALIGN_PAGE a = 0) := by
  have e := MEM_ALIGN_PAGE_eq a
  have f := MEM_ALIGN_PAGE_DESTRUCTIVE_eq a ha
  refine ⟨by omega, ⟨(a + 4096) % 2 ^ 64 / 4096, by omega⟩, ?_, ?_⟩
  · intro h
    omega
  · intro h
    omega

/-- Witness for C18: the unaligned address `0x1ABC` and the last page of the
address space. -/
theorem MEM_ALIGN_PAGE_next_page_witness :
    (0x1ABC : Nat) < 2 ^ 64 ∧ (0x1ABC : Nat) < 2 ^ 64 - 4096
      ∧ MEM_ALIGN_PAGE 0x1ABC = (MEM_ALIGN_PAGE_DESTRUCTIVE 0x1ABC + 4096) % 2 ^ 64
      ∧ 0x1ABC + 1 ≤ MEM_ALIGN_PAGE 0x1ABC
      ∧ (0xFFFFFFFFFFFFF000 : Nat) < 2 ^ 64 ∧ 2 ^ 64 - 4096 ≤ (0xFFFFFFFFFFFFF000 : Nat)
      ∧ MEM_ALIGN_PAGE 0xFFFFFFFFFFFFF000 = 0 :=
  ⟨by decide, by decide, (MEM_ALIGN_PAGE_next_page 0x1ABC (by decide)).1,
    ((MEM_ALIGN_PAGE_next_page 0x1ABC (by decide)).2.2.1 (by decide)).1,
    by decide, by decide,
    (MEM_ALIGN_PAGE_next_page 0xFFFFFFFFFFFFF000 (by decide)).2.2.2 (by decide)⟩


/-! ## Map, then translate -/

theorem PhysMem_write_same (mem : PhysMem) (T i : Nat) (e : page_t) :
    (mem.write T i e) T i = e := by
  simp [PhysMem.write]

theorem PhysMem_write_other (mem : PhysMem) (T i : Nat) (e : page_t) (X j : Nat)
    (h : X ≠ T) : (mem.write T i e) X j = mem X j := by
  simp [PhysMem.write, h]

theorem PhysMem_zeroFrame_same (mem : PhysMem) (f j : Nat) :
    (mem.zeroFrame f) f j = page_t.zero := by
  simp [PhysMem.zeroFrame]

theorem PhysMem_zeroFrame_other (mem : PhysMem) (f X j : Nat) (h : X ≠ f) :
    (mem.zeroFrame f) X j = mem X j := by
  simp [PhysMem.zeroFrame, h]

/-- A table without present entries is the only table on its walks. -/
theorem pathTables_absent (is : List Nat) (mem : PhysMem) (T : Nat)
    (h : ∀ j, ¬ (mem T j).present = 1) : pathTables is mem T = [T] := by
  cases is with
  | nil => rfl
  | cons i is => simp [pathTables, h i]

/-- The creating walk changes no table outside the tables on the walk and the
free frames, and when it succeeds the non-creating walk ends at the leaf it
installed, provided the tables on the walk and the free frames are pairwise
distinct and the free frames are aligned and below `2 ^ 31`. -/
theorem walkCreate_spec (A : Attributes) (F i1 : Nat) (idxs : List Nat) :
    ∀ (mem : PhysMem) (frames : List Nat) (T : Nat),
      (pathTables idxs mem T ++ frames).Nodup →
      (∀ f ∈ frames, f % 4096 = 0 ∧ f < 2 ^ 31) →
      (∀ X, X ∉ pathTables idxs mem T → X ∉ frames →
          ∀ j, (walkCreate A F i1 idxs mem frames T).2.1 X j = mem X j)
        ∧ ((walkCreate A F i1 idxs mem frames T).1 = MapResult.Ok →
            walkEntry i1 idxs (walkCreate A F i1 idxs mem frames T).2.1 T
              = some (leafEntry F A)) := by
  induction idxs with
  | nil =>
    intro mem frames T _ _
    have hleaf : (leafEntry F A).present = 1 := rfl
    by_cases hp : (mem T i1).present = 1 ∧ A.overwrite = false
    · simp only [walkCreate, if_pos hp]
      refine ⟨fun _ _ _ _ => trivial, ?_⟩
      intro h
      exact absurd h (by decide)
    · simp only [walkCreate, if_neg hp]
      refine ⟨?_, ?_⟩
      · intro X hX _ j
        have hne : X ≠ T := by
          intro h
          exact hX (by simp [pathTables, h])
        exact PhysMem_write_other _ _ _ _ _ _ hne
      · intro _
        simp only [walkEntry, PhysMem_write_same, hleaf, if_true]
  | cons i is ih =>
    intro mem frames T hnd hfr
    by_cases hp : (mem T i).present = 1
    · have hpath : pathTables (i :: is) mem T
          = T :: pathTables is mem (MEM_GET_FRAME (mem T i)) := by
        simp [pathTables, hp]
      rw [hpath] at hnd ⊢
      have hnd2 : (pathTables is mem (MEM_GET_FRAME (mem T i)) ++ frames).Nodup :=
        (List.nodup_cons.mp hnd).2
      have hT : T ∉ pathTables is mem (MEM_GET_FRAME (mem T i)) ++ frames :=
        (List.nodup_cons.mp hnd).1
      obtain ⟨ih1, ih2⟩ := ih mem frames (MEM_GET_FRAME (mem T i)) hnd2 hfr
      have hw : walkCreate A F i1 (i :: is) mem frames T
          = walkCreate A F i1 is mem frames (MEM_GET_FRAME (mem T i)) := by
        simp only [walkCreate, if_pos hp]
      rw [hw]
      refine ⟨?_, ?_⟩
      · intro X hX hXf j
        exact ih1 X (fun h => hX (List.mem_cons_of_mem _ h)) hXf j
      · intro hok
        have hkeep := ih1 T (fun h => hT (List.mem_append_left _ h))
          (fun h => hT (List.mem_append_right _ h)) i
        simp only [walkEntry, hkeep, if_pos hp]
        exact ih2 hok
    · have hpath : pathTables (i :: is) mem T = [T] := by
        simp [pathTables, hp]
      rw [hpath] at hnd ⊢
      cases frames with
      | nil =>
        simp only [walkCreate, if_neg hp]
        refine ⟨fun _ _ _ _ => trivial, ?_⟩
        intro h
        exact absurd h (by decide)
      | cons f rest =>
        have hgood := hfr f (List.mem_cons_self _ _)
        have hget : MEM_GET_FRAME (intermediateEntry f A.user) = f :=
          MEM_GET_FRAME_SET_FRAME_of_lt _ f hgood.1 hgood.2
        have hpres : (intermediateEntry f A.user).present = 1 := rfl
        have hw : walkCreate A F i1 (i :: is) mem (f :: rest) T
            = walkCreate A F i1 is
                ((mem.zeroFrame f).write T i (intermediateEntry f A.user)) rest f := by
          simp only [walkCreate, if_neg hp, hget]
        rw [hw]
        have hnd1 := List.nodup_cons.mp hnd
        have hTf : T ≠ f := fun h => hnd1.1 (by simp [h])
        have hTrest : T ∉ rest := fun h => hnd1.1 (by simp [h])
        have hnd3 : (f :: rest).Nodup := by simpa using hnd1.2
        have hzero : ∀ j, ¬ (((mem.zeroFrame f).write T i (intermediateEntry f A.user)) f
            j).present = 1 := by
          intro j
          rw [PhysMem_write_other _ _ _ _ _ _ (Ne.symm hTf), PhysMem_zeroFrame_same]
          decide
        have hpath2 := pathTables_absent is _ f hzero
        obtain ⟨ih1, ih2⟩ := ih ((mem.zeroFrame f).write T i (intermediateEntry f A.user))
          rest f (by rw [hpath2]; simpa using hnd3)
          (fun g hg => hfr g (List.mem_cons_of_mem _ hg))
        rw [hpath2] at ih1
        refine ⟨?_, ?_⟩
        · intro X hX hXf j
          have hXT : X ≠ T := fun h => hX (by simp [h])
          have hXf2 : X ≠ f := fun h => hXf (by simp [h])
          have hXrest : X ∉ rest := fun h => hXf (List.mem_cons_of_mem _ h)
          rw [ih1 X (by simpa using hXf2) hXrest j, PhysMem_write_other _ _ _ _ _ _ hXT,
            PhysMem_zeroFrame_other _ _ _ _ hXf2]
        · intro hok
          have hkeep := ih1 T (by simpa using hTf) hTrest i
          rw [PhysMem_write_same] at hkeep
          simp only [walkEntry, hkeep, hpres, if_true, hget]
          exact ih2 hok

/-- C13 (as stated, refuted): in the empty address space with its top-level
table at `0x100000` and the free frames `0x1000`, `0x2000`, `0x3000`, mapping
the canonical Userspace address `0x1000` to the 4096-aligned frame
`0x10000000000 = 2 ^ 40` is accepted by the policy and succeeds, but the leaf
holds the frame field 0 and `translate` returns `0`: the leaf keeps only bits
12..39 of the frame. -/
theorem map_then_translate_fails_above_40_bits :
    (0x10000000000 : Nat) % 4096 = 0
      ∧ policy 0 0x1000 ⟨Purpose.userspace, true, true, false, false⟩ = MapResult.Ok
      ∧ ((AddressSpace.empty 0x100000).map 0 [0x1000, 0x2000, 0x3000] 0x1000 0x10000000000
          ⟨Purpose.userspace, true, true, false, false⟩).1 = MapResult.Ok
      ∧ ((AddressSpace.empty 0x100000).map 0 [0x1000, 0x2000, 0x3000] 0x1000 0x10000000000
          ⟨Purpose.userspace, true, true, false, false⟩).2.1.translate 0x1000 = some 0
      ∧ ((AddressSpace.empty 0x100000).map 0 [0x1000, 0x2000, 0x3000] 0x1000 0x10000000000
          ⟨Purpose.userspace, true, true, false, false⟩).2.1.translate 0x1000
          ≠ some 0x10000000000 := by
  decide

/-- C13 (amended): take an address space and a frame allocator such that the
existing tables on the walk of `V` and the free frames are pairwise distinct
and the free frames are 4096-aligned and below `2 ^ 31`. For every attribute
set `A` and every 4096-aligned physical frame `F < 2 ^ 40`, if `map` succeeds
then `V` was accepted by the mapping policy, the walk of `V` in the resulting
address space ends at the leaf entry built from `F` and `A`, whose frame field
holds `F` exactly; and for `F < 2 ^ 31`, `translate` on the resulting address
space returns `F`. Nothing is stated about what `translate` returns for
`2 ^ 31 ≤ F < 2 ^ 40`. -/
theorem map_then_translate (dev_size : Nat) (as : AddressSpace) (frames : List Nat)
    (V F : Nat) (A : Attributes)
    (hsep : (as.walkTables V ++ frames).Nodup)
    (hfr : ∀ f ∈ frames, f % 4096 = 0 ∧ f < 2 ^ 31)
    (hal : F % 4096 = 0) (hF : F < 2 ^ 40)
    (hok : (as.map dev_size frames V F A).1 = MapResult.Ok) :
    policy dev_size V A = MapResult.Ok
      ∧ (as.map dev_size frames V F A).2.1.lookup V = some (leafEntry F A)
      ∧ (leafEntry F A).present = 1
      ∧ (leafEntry F A).address * 4096 = F
      ∧ (F < 2 ^ 31 → (as.map dev_size frames V F A).2.1.translate V = some F) := by
  have haddr : (leafEntry F A).address * 4096 = F := by
    unfold leafEntry
    rw [MEM_SET_FRAME_address]
    omega
  unfold AddressSpace.map at hok ⊢
  by_cases hpol : policy dev_size V A = MapResult.Ok
  · rw [if_pos hpol] at hok ⊢
    have hwalk := (walkCreate_spec A F (MEM_PAGETBL_INDEX V)
      [MEM_PML4_INDEX V, MEM_PDPT_INDEX V, MEM_PAGEDIR_INDEX V] as.mem frames as.root
      hsep hfr).2 hok
    refine ⟨hpol, hwalk, rfl, haddr, ?_⟩
    intro h31
    unfold AddressSpace.translate
    have hl : AddressSpace.lookup
        ⟨as.root, (walkCreate A F (MEM_PAGETBL_INDEX V)
          [MEM_PML4_INDEX V, MEM_PDPT_INDEX V, MEM_PAGEDIR_INDEX V] as.mem frames
          as.root).2.1⟩ V = some (leafEntry F A) := hwalk
    rw [hl]
    simp only [Option.map_some']
    unfold leafEntry
    rw [MEM_GET_FRAME_SET_FRAME_of_lt _ F hal h31]
  · rw [if_neg hpol] at hok
    exact absurd hok hpol

/-- Witness for C13 (amended): the empty address space with its top-level table
at `0x100000`, three free frames, the Userspace address `0x1000` and the frame
`0x5000`. -/
theorem map_then_translate_witness :
    ((AddressSpace.empty 0x100000).walkTables 0x1000 ++ [0x1000, 0x2000, 0x3000]).Nodup
      ∧ (∀ f ∈ [0x1000, 0x2000, 0x3000], f % 4096 = 0 ∧ f < 2 ^ 31)
      ∧ (0x5000 : Nat) % 4096 = 0 ∧ (0x5000 : Nat) < 2 ^ 40 ∧ (0x5000 : Nat) < 2 ^ 31
      ∧ ((AddressSpace.empty 0x100000).map 0 [0x1000, 0x2000, 0x3000] 0x1000 0x5000
          ⟨Purpose.userspace, true, true, false, false⟩).1 = MapResult.Ok
      ∧ ((AddressSpace.empty 0x100000).map 0 [0x1000, 0x2000, 0x3000] 0x1000 0x5000
          ⟨Purpose.userspace, true, true, false, false⟩).2.1.translate 0x1000 = some 0x5000 :=
  ⟨by decide, by decide, by decide, by decide, by decide, by decide,
    (map_then_translate 0 (AddressSpace.empty 0x100000) [0x1000, 0x2000, 0x3000] 0x1000 0x5000
      ⟨Purpose.userspace, true, true, false, false⟩ (by decide) (by decide) (by decide)
      (by decide) (by decide)).2.2.2.2 (by decide)⟩

/-- Runs of the modelled `map` and `translate` on the cases that section 8 of
the specification lists: a Driver address is refused for the Userspace purpose
and mapped for the Driver purpose; a Heap address is mapped for the Heap
purpose; a non-canonical address, a user-accessible mapping outside Userspace
and a Framebuffer mapping are refused; a second `map` of the same address is
`AlreadyMapped` without the overwrite request and replaces the frame with it;
two free frames are not enough for three new tables, and the tables created
before the failure are used by the next call. -/
theorem map_translate_runs :
    ((AddressSpace.empty 0x100000).map 0 [0x1000, 0x2000, 0x3000] 0xFFFFFFFF00000000 0x5000
        ⟨Purpose.userspace, true, false, false, false⟩).1 = MapResult.RegionViolation
      ∧ ((AddressSpace.empty 0x100000).map 0 [0x1000, 0x2000, 0x3000] 0xFFFFFFFF00000000 0x5000
        ⟨Purpose.driver, true, false, false, false⟩).1 = MapResult.Ok
      ∧ ((AddressSpace.empty 0x100000).map 0 [0x1000, 0x2000, 0x3000] 0xFFFFFFFF00000000 0x5000
        ⟨Purpose.driver, true, false, false, false⟩).2.1.translate 0xFFFFFFFF00000000
          = some 0x5000
      ∧ ((AddressSpace.empty 0x100000).map 0 [0x1000, 0x2000, 0x3000] 0xFFFFFF0000001000 0x5000
        ⟨Purpose.heap, true, false, false, false⟩).1 = MapResult.Ok
      ∧ ((AddressSpace.empty 0x100000).map 0 [0x1000, 0x2000, 0x3000] 0x0001000000000000 0x5000
        ⟨Purpose.userspace, true, false, false, false⟩).1 = MapResult.InvalidAddress
      ∧ ((AddressSpace.empty 0x100000).map 0 [0x1000, 0x2000, 0x3000] 0xFFFFFFFF00000000 0x5000
        ⟨Purpose.driver, true, true, false, false⟩).1 = MapResult.RegionViolation
      ∧ ((AddressSpace.empty 0x100000).map 0 [0x1000, 0x2000, 0x3000] 0x0000080000000000 0x5000
        ⟨Purpose.framebuffer, true, false, false, false⟩).1 = MapResult.RegionViolation
      ∧ (AddressSpace.empty 0x100000).translate 0x1000 = none
      ∧ (((AddressSpace.empty 0x100000).map 0 [0x1000, 0x2000, 0x3000] 0x1000 0x5000
          ⟨Purpose.userspace, true, true, false, false⟩).2.1.map 0 [] 0x1000 0x6000
          ⟨Purpose.userspace, true, true, false, false⟩).1 = MapResult.AlreadyMapped
      ∧ (((AddressSpace.empty 0x100000).map 0 [0x1000, 0x2000, 0x3000] 0x1000 0x5000
          ⟨Purpose.userspace, true, true, false, false⟩).2.1.map 0 [] 0x1000 0x6000
          ⟨Purpose.userspace, true, true, false, true⟩).2.1.translate 0x1000 = some 0x6000
      ∧ ((AddressSpace.empty 0x100000).map 0 [0x1000, 0x2000] 0x1000 0x5000
          ⟨Purpose.userspace, true, true, false, false⟩).1 = MapResult.OutOfMemory
      ∧ (((AddressSpace.empty 0x100000).map 0 [0x1000, 0x2000] 0x1000 0x5000
          ⟨Purpose.userspace, true, true, false, false⟩).2.1.map 0 [0x3000] 0x1000 0x5000
          ⟨Purpose.userspace, true, true, false, false⟩).2.1.translate 0x1000 = some 0x5000 := by
  decide

/-! ## Celestial event handlers and subscriptions -/

/-- The function-based hashmap behaves as a hashmap. -/
theorem HashmapOps_concrete_lawful : HashmapOps.concrete.lawful := by
  refine ⟨?_, ?_, ?_, ?_⟩
  · intro m k v
    simp [HashmapOps.concrete]
  · intro m k v
    simp [HashmapOps.concrete]
  · intro m k v j hj
    simp [HashmapOps.concrete, hj]
  · intro m k v j hj
    simp [HashmapOps.concrete, hj]

/-- C14: `celestial_setHandler` never replaces a registered handler. If the
handler map of the window has an entry for the event, the call returns -1 with
`errno = EEXIST` and the window, handler map included, is unchanged. If it has
none, the call returns 0, leaves `errno` alone, and in the resulting map the
event is present with the given handler while every other event is present or
absent, and mapped, as before. -/
theorem celestial_setHandler_spec {M : Type} (ops : HashmapOps M) (hlaw : ops.lawful)
    (EEXIST : Int) (win : window_t M) (errno : Int) (event handler : Nat) :
    (ops.hashmap_has win.event_handler_map event = true →
        celestial_setHandler ops EEXIST win errno event handler = (-1, win, EEXIST))
      ∧ (ops.hashmap_has win.event_handler_map event = false →
          (celestial_setHandler ops EEXIST win errno event handler).1 = 0
            ∧ (celestial_setHandler ops EEXIST win errno event handler).2.2 = errno
            ∧ (celestial_setHandler ops EEXIST win errno event handler).2.1.wid = win.wid
            ∧ ops.hashmap_has
                (celestial_setHandler ops EEXIST win errno event handler).2.1.event_handler_map
                event = true
            ∧ ops.hashmap_get
                (celestial_setHandler ops EEXIST win errno event handler).2.1.event_handler_map
                event = handler
            ∧ ∀ e, e ≠ event →
                ops.hashmap_has
                    (celestial_setHandler ops EEXIST win errno event
                      handler).2.1.event_handler_map e
                  = ops.hashmap_has win.event_handler_map e
                ∧ ops.hashmap_get
                    (celestial_setHandler ops EEXIST win errno event
                      handler).2.1.event_handler_map e
                  = ops.hashmap_get win.event_handler_map e) := by
  obtain ⟨l1, l2, l3, l4⟩ := hlaw
  refine ⟨?_, ?_⟩
  · intro h
    unfold celestial_setHandler
    rw [if_pos h]
  · intro h
    have hne : ¬ (ops.hashmap_has win.event_handler_map event = true) := by
      rw [h]
      decide
    unfold celestial_setHandler
    rw [if_neg hne]
    exact ⟨rfl, rfl, rfl, l1 _ _ _, l2 _ _ _, fun e he => ⟨l3 _ _ _ e he, l4 _ _ _ e he⟩⟩

/-- Witness for C14: a window whose map holds handler 7 for event 1; setting a
handler for event 1 is refused, setting one for event 2 succeeds. -/
theorem celestial_setHandler_spec_witness :
    HashmapOps.concrete.lawful
      ∧ (celestial_setHandler HashmapOps.concrete 17
          ⟨3, fun k => if k = 1 then some 7 else none⟩ 0 1 9).1 = -1
      ∧ (celestial_setHandler HashmapOps.concrete 17
          ⟨3, fun k => if k = 1 then some 7 else none⟩ 0 1 9).2.2 = 17
      ∧ (celestial_setHandler HashmapOps.concrete 17
          ⟨3, fun k => if k = 1 then some 7 else none⟩ 0 2 9).1 = 0
      ∧ HashmapOps.concrete.hashmap_get
          (celestial_setHandler HashmapOps.concrete 17
            ⟨3, fun k => if k = 1 then some 7 else none⟩ 0 2 9).2.1.event_handler_map 2 = 9 :=
  ⟨HashmapOps_concrete_lawful,
    congrArg Prod.fst ((celestial_setHandler_spec HashmapOps.concrete HashmapOps_concrete_lawful
      17 ⟨3, fun k => if k = 1 then some 7 else none⟩ 0 1 9).1 (by decide)),
    congrArg (fun r => r.2.2) ((celestial_setHandler_spec HashmapOps.concrete
      HashmapOps_concrete_lawful 17 ⟨3, fun k => if k = 1 then some 7 else none⟩ 0 1 9).1
      (by decide)),
    ((celestial_setHandler_spec HashmapOps.concrete HashmapOps_concrete_lawful
      17 ⟨3, fun k => if k = 1 then some 7 else none⟩ 0 2 9).2 (by decide)).1,
    ((celestial_setHandler_spec HashmapOps.concrete HashmapOps_concrete_lawful
      17 ⟨3, fun k => if k = 1 then some 7 else none⟩ 0 2 9).2 (by decide)).2.2.2.2.1⟩

/-- The common body returns 0 or -1, always sends exactly its request, returns
-1 when sending fails or no response arrives, and returns 0 only if sending
succeeded and a response arrived. -/
theorem celestial_request_spec {R : Type} (env : CelestialEnv R) (req : celestial_req_t)
    (t : Nat) :
    (celestial_request env req t).sent = [(req, req.size)]
      ∧ ((celestial_request env req t).ret = 0 ∨ (celestial_request env req t).ret = -1)
      ∧ (env.celestial_sendRequest req req.size < 0 → (celestial_request env req t).ret = -1)
      ∧ (env.celestial_getResponse t = none → (celestial_request env req t).ret = -1)
      ∧ ((celestial_request env req t).ret = 0 →
          0 ≤ env.celestial_sendRequest req req.size
            ∧ ∃ resp, env.celestial_getResponse t = some resp ∧ env.respError resp = none) := by
  unfold celestial_request
  by_cases hs : env.celestial_sendRequest req req.size < 0
  · simp [hs]
  · rw [if_neg hs]
    cases hr : env.celestial_getResponse t with
    | none => simp
    | some resp =>
      cases he : env.respError resp with
      | none => simp [he]; omega
      | some e => simp [he]

/-- C15: `celestial_subscribe` and `celestial_unsubscribe` return 0 or -1.
With a `NULL` window or an event mask of 0 they return -1, store `EINVAL` in
`errno` and send no request. With a window and a non-zero mask they return -1
whenever `celestial_sendRequest` returns a negative value or
`celestial_getResponse` returns `NULL`. They return 0 only if the window is
not `NULL`, the mask is not 0, the request (the only one sent) was sent with a
non-negative result and a response was received. -/
theorem celestial_subscribe_returns_zero_only_on_success {R M : Type} (env : CelestialEnv R)
    (win : Option (window_t M)) (events : Nat) :
    ((win = none ∨ events = 0 →
          celestial_subscribe env win events = ⟨-1, some env.EINVAL, []⟩)
        ∧ ((celestial_subscribe env win events).ret = 0
            ∨ (celestial_subscribe env win events).ret = -1)
        ∧ (∀ w, win = some w → events ≠ 0 →
            (env.celestial_sendRequest (subscribe_req env w events)
                (subscribe_req env w events).size < 0
              ∨ env.celestial_getResponse env.CELESTIAL_REQ_SUBSCRIBE = none) →
            (celestial_subscribe env win events).ret = -1)
        ∧ ((celestial_subscribe env win events).ret = 0 →
            ∃ w resp, win = some w ∧ events ≠ 0
              ∧ 0 ≤ env.celestial_sendRequest (subscribe_req env w events)
                  (subscribe_req env w events).size
              ∧ env.celestial_getResponse env.CELESTIAL_REQ_SUBSCRIBE = some resp
              ∧ (celestial_subscribe env win events).sent
                  = [(subscribe_req env w events, (subscribe_req env w events).size)]))
      ∧ ((win = none ∨ events = 0 →
          celestial_unsubscribe env win events = ⟨-1, some env.EINVAL, []⟩)
        ∧ ((celestial_unsubscribe env win events).ret = 0
            ∨ (celestial_unsubscribe env win events).ret = -1)
        ∧ (∀ w, win = some w → events ≠ 0 →
            (env.celestial_sendRequest (unsubscribe_req env w events)
                (unsubscribe_req env w events).size < 0
              ∨ env.celestial_getResponse env.CELESTIAL_REQ_UNSUBSCRIBE = none) →
            (celestial_unsubscribe env win events).ret = -1)
        ∧ ((celestial_unsubscribe env win events).ret = 0 →
            ∃ w resp, win = some w ∧ events ≠ 0
              ∧ 0 ≤ env.celestial_sendRequest (unsubscribe_req env w events)
                  (unsubscribe_req env w events).size
              ∧ env.celestial_getResponse env.CELESTIAL_REQ_UNSUBSCRIBE = some resp
              ∧ (celestial_unsubscribe env win events).sent
                  = [(unsubscribe_req env w events, (unsubscribe_req env w events).size)])) := by
  refine ⟨?_, ?_⟩
  · unfold celestial_subscribe
    cases win with
    | none => simp
    | some w =>
      by_cases he : events = 0
      · simp [he]
      · obtain ⟨h1, h2, h3, h4, h5⟩ := celestial_request_spec env (subscribe_req env w events)
          env.CELESTIAL_REQ_SUBSCRIBE
        simp only [if_neg he]
        refine ⟨?_, h2, ?_, ?_⟩
        · rintro (h | h)
          · cases h
          · exact absurd h he
        · intro w2 hw _ hfail
          cases hw
          rcases hfail with hf | hf
          · exact h3 hf
          · exact h4 hf
        · intro h0
          obtain ⟨hs, resp, hr, _⟩ := h5 h0
          exact ⟨w, resp, rfl, he, hs, hr, h1⟩
  · unfold celestial_unsubscribe
    cases win with
    | none => simp
    | some w =>
      by_cases he : events = 0
      · simp [he]
      · obtain ⟨h1, h2, h3, h4, h5⟩ := celestial_request_spec env (unsubscribe_req env w events)
          env.CELESTIAL_REQ_UNSUBSCRIBE
        simp only [if_neg he]
        refine ⟨?_, h2, ?_, ?_⟩
        · rintro (h | h)
          · cases h
          · exact absurd h he
        · intro w2 hw _ hfail
          cases hw
          rcases hfail with hf | hf
          · exact h3 hf
          · exact h4 hf
        · intro h0
          obtain ⟨hs, resp, hr, _⟩ := h5 h0
          exact ⟨w, resp, rfl, he, hs, hr, h1⟩

/-- Witness for C15: a `NULL` window, a failed send, a missing response, and a
successful subscription of window 5 to the events `3`. -/
theorem celestial_subscribe_returns_zero_only_on_success_witness :
    celestial_subscribe (CelestialEnv.concrete 0 (some 1) none)
        (none : Option (window_t Unit)) 3 = ⟨-1, some 22, []⟩
      ∧ (celestial_subscribe (CelestialEnv.concrete (-1) (some 1) none)
          (some (⟨5, ()⟩ : window_t Unit)) 3).ret = -1
      ∧ (celestial_unsubscribe (CelestialEnv.concrete 0 none none)
          (some (⟨5, ()⟩ : window_t Unit)) 3).ret = -1
      ∧ (celestial_subscribe (CelestialEnv.concrete 0 (some 1) none)
          (some (⟨5, ()⟩ : window_t Unit)) 3).ret = 0
      ∧ (celestial_unsubscribe (CelestialEnv.concrete 0 (some 1) none)
          (some (⟨5, ()⟩ : window_t Unit)) 3).ret = 0 :=
  ⟨(celestial_subscribe_returns_zero_only_on_success (CelestialEnv.concrete 0 (some 1) none)
      (none : Option (window_t Unit)) 3).1.1 (Or.inl rfl),
    (celestial_subscribe_returns_zero_only_on_success (CelestialEnv.concrete (-1) (some 1) none)
      (some (⟨5, ()⟩ : window_t Unit)) 3).1.2.2.1 ⟨5, ()⟩ rfl (by decide)
      (Or.inl (by decide)),
    (celestial_subscribe_returns_zero_only_on_success (CelestialEnv.concrete 0 none none)
      (some (⟨5, ()⟩ : window_t Unit)) 3).2.2.2.1 ⟨5, ()⟩ rfl (by decide)
      (Or.inr rfl),
    by decide, by decide⟩

end Ethereal
